import Mathlib

/-!
Verification of the record codec, matching, merge and import pipeline of
`lbimport.py` together with the genre resolver of `lbgenre.py`.

Modelling conventions.  Python text is modelled at the byte level: the
cp437 codec used by the program is a bijection between the 256 byte values
and a fixed 256-character subset of Unicode, so a Python string consisting
of cp437-representable characters is identified with its byte sequence,
one natural number per character.  Claims about text are therefore stated
over lists of naturals, restricted (where the claim restricts itself) to
values below 256.  Uppercasing is modelled on the ASCII letters a..z,
which covers every concrete input appearing in the development.  Machine
integers are naturals (or integers for the signed 32-bit database id) with
explicit reduction modulo 2^8, 2^16 or 2^32 at the byte boundaries where
CPython would instead raise for an out-of-range store; every theorem below
only ever exercises the in-range cases, where the two behaviours agree.
-/

namespace DosMenu

/-- Byte strings: Python text in the cp437 single-byte codepage, one
natural number per character (equivalently per encoded byte). -/
abbrev Str := List Nat

/-- ASCII string literal converted to its byte-list model. -/
def strBytes (s : String) : Str := s.toList.map Char.toNat

/-- Record size constant from `lbimport.py`. -/
def RECORD_SIZE : Nat := 256

/-- Mapping record size constant from `lbimport.py`. -/
def MAP_RECORD_SIZE : Nat := 48

/-- `pascal_string_encode` from `lbimport.py`: truncate to `maxLen`
characters, then one length byte followed by the character bytes,
zero-padded so the result always has `maxLen + 1` bytes. -/
def pascal_string_encode (s : Str) (maxLen : Nat) : List Nat :=
  let t := s.take maxLen
  t.length :: (t ++ List.replicate (maxLen - t.length) 0)

/-- `pascal_string_decode` from `lbimport.py`: read the length byte, clamp
it to `maxLen`, and return that many following bytes. -/
def pascal_string_decode (data : List Nat) (maxLen : Nat) : Str :=
  match data with
  | [] => []
  | len :: rest => rest.take (min len maxLen)

/-- In-memory game record, the dictionary produced by
`unpack_game_record` / consumed by `pack_game_record`. -/
structure Game where
  title : Str
  path : Str
  command : Str
  args : Str
  sound_flags : Nat
  sound_fm : Nat
  sound_midi : Nat
  graphics_flags : Nat
  publisher : Str
  year : Str
  genre_code : Nat
  slowdown_su : Nat
  requires_cd : Bool
  deleted : Bool
  deriving Repr, DecidableEq

/-- 16-bit little-endian encoding, `struct.pack_into` with format `<H`. -/
def word16Bytes (v : Nat) : List Nat := [v % 256, v / 256 % 256]

/-- `pack_game_record` from `lbimport.py`: the six Pascal strings, four
single-byte sound/graphics fields, genre byte, 16-bit slowdown word, two
boolean bytes, and four bytes of padding up to 256. -/
def pack_game_record (g : Game) : List Nat :=
  pascal_string_encode g.title 50 ++
  (pascal_string_encode g.path 80 ++
  (pascal_string_encode g.command 13 ++
  (pascal_string_encode g.args 60 ++
  ([g.sound_flags % 256, g.sound_fm % 256, g.sound_midi % 256, g.graphics_flags % 256] ++
  (pascal_string_encode g.publisher 30 ++
  (pascal_string_encode g.year 4 ++
  ([g.genre_code % 256] ++
  (word16Bytes g.slowdown_su ++
  ([if g.requires_cd then 1 else 0] ++
  ([if g.deleted then 1 else 0] ++
  List.replicate 4 0))))))))))

/-- Byte access `data[i]` (every use below is in bounds, so the default
value is never observed on well-formed input). -/
def byteAt (data : List Nat) (i : Nat) : Nat := (data.get? i).getD 0

/-- The slice `data[pos:pos+len]`. -/
def sliceList (data : List Nat) (pos len : Nat) : List Nat := (data.drop pos).take len

/-- Field extraction of `unpack_game_record` from `lbimport.py`, without
the length precondition (all call sites pass exactly 256 bytes). -/
def unpackGameCore (data : List Nat) : Game :=
  { title := pascal_string_decode (sliceList data 0 51) 50
    path := pascal_string_decode (sliceList data 51 81) 80
    command := pascal_string_decode (sliceList data 132 14) 13
    args := pascal_string_decode (sliceList data 146 61) 60
    sound_flags := byteAt data 207
    sound_fm := byteAt data 208
    sound_midi := byteAt data 209
    graphics_flags := byteAt data 210
    publisher := pascal_string_decode (sliceList data 211 31) 30
    year := pascal_string_decode (sliceList data 242 5) 4
    genre_code := byteAt data 247
    slowdown_su := byteAt data 248 + 256 * byteAt data 249
    requires_cd := byteAt data 250 != 0
    deleted := byteAt data 251 != 0 }

/-- `unpack_game_record` from `lbimport.py`: raises (here: `none`) unless
given exactly 256 bytes. -/
def unpack_game_record (data : List Nat) : Option Game :=
  if data.length = RECORD_SIZE then some (unpackGameCore data) else none

/-- Canonicalization in the words of the spec: apply exactly the
truncation that encoding performs to each text field, leaving every other
field untouched.  This is the spec-side definition used to state the
round-trip law of claim C1; it is compared against the codec functions
translated from the source. -/
def specCanonicalize (g : Game) : Game :=
  { g with
    title := g.title.take 50
    path := g.path.take 80
    command := g.command.take 13
    args := g.args.take 60
    publisher := g.publisher.take 30
    year := g.year.take 4 }

/-- All characters of a text field are representable in the single-byte
encoding (in the byte model: are byte values). -/
def validChars (s : Str) : Prop := ∀ c ∈ s, c < 256

instance (s : Str) : Decidable (validChars s) := by
  unfold validChars; infer_instance

theorem length_pascal_string_encode (s : Str) (m : Nat) :
    (pascal_string_encode s m).length = m + 1 := by
  have h : (s.take m).length ≤ m := by
    simp [List.length_take]
  simp [pascal_string_encode]

theorem pascal_string_decode_encode (s : Str) (m : Nat) :
    pascal_string_decode (pascal_string_encode s m) m = s.take m := by
  have h : (s.take m).length ≤ m := by
    simp [List.length_take]
  simp only [pascal_string_encode, pascal_string_decode]
  rw [min_eq_left h, List.take_left]

theorem length_pack_game_record (g : Game) :
    (pack_game_record g).length = 256 := by
  simp [pack_game_record, length_pascal_string_encode, word16Bytes]

theorem unpackGameCore_pack (g : Game)
    (h1 : g.sound_flags ≤ 255) (h2 : g.sound_fm ≤ 255) (h3 : g.sound_midi ≤ 255)
    (h4 : g.graphics_flags ≤ 255) (h5 : g.genre_code ≤ 255) (h6 : g.slowdown_su ≤ 65535) :
    unpackGameCore (pack_game_record g) = specCanonicalize g := by
  have e1 := length_pascal_string_encode g.title 50
  have e2 := length_pascal_string_encode g.path 80
  have e3 := length_pascal_string_encode g.command 13
  have e4 := length_pascal_string_encode g.args 60
  have e5 := length_pascal_string_encode g.publisher 30
  have e6 := length_pascal_string_encode g.year 4
  have d51 : (pack_game_record g).drop 51 =
      pascal_string_encode g.path 80 ++
      (pascal_string_encode g.command 13 ++
      (pascal_string_encode g.args 60 ++
      ([g.sound_flags % 256, g.sound_fm % 256, g.sound_midi % 256, g.graphics_flags % 256] ++
      (pascal_string_encode g.publisher 30 ++
      (pascal_string_encode g.year 4 ++
      ([g.genre_code % 256] ++
      (word16Bytes g.slowdown_su ++
      ([if g.requires_cd then 1 else 0] ++
      ([if g.deleted then 1 else 0] ++
      List.replicate 4 0))))))))) := by
    rw [pack_game_record, show (51 : Nat) = (pascal_string_encode g.title 50).length from e1.symm,
      List.drop_left]
  have d132 : (pack_game_record g).drop 132 =
      pascal_string_encode g.command 13 ++
      (pascal_string_encode g.args 60 ++
      ([g.sound_flags % 256, g.sound_fm % 256, g.sound_midi % 256, g.graphics_flags % 256] ++
      (pascal_string_encode g.publisher 30 ++
      (pascal_string_encode g.year 4 ++
      ([g.genre_code % 256] ++
      (word16Bytes g.slowdown_su ++
      ([if g.requires_cd then 1 else 0] ++
      ([if g.deleted then 1 else 0] ++
      List.replicate 4 0)))))))) := by
    have : (132 : Nat) = 51 + 81 := by norm_num
    rw [this, ← List.drop_drop, d51,
      show (81 : Nat) = (pascal_string_encode g.path 80).length from e2.symm, List.drop_left]
  have d146 : (pack_game_record g).drop 146 =
      pascal_string_encode g.args 60 ++
      ([g.sound_flags % 256, g.sound_fm % 256, g.sound_midi % 256, g.graphics_flags % 256] ++
      (pascal_string_encode g.publisher 30 ++
      (pascal_string_encode g.year 4 ++
      ([g.genre_code % 256] ++
      (word16Bytes g.slowdown_su ++
      ([if g.requires_cd then 1 else 0] ++
      ([if g.deleted then 1 else 0] ++
      List.replicate 4 0))))))) := by
    have : (146 : Nat) = 132 + 14 := by norm_num
    rw [this, ← List.drop_drop, d132,
      show (14 : Nat) = (pascal_string_encode g.command 13).length from e3.symm, List.drop_left]
  have d207 : (pack_game_record g).drop 207 =
      [g.sound_flags % 256, g.sound_fm % 256, g.sound_midi % 256, g.graphics_flags % 256] ++
      (pascal_string_encode g.publisher 30 ++
      (pascal_string_encode g.year 4 ++
      ([g.genre_code % 256] ++
      (word16Bytes g.slowdown_su ++
      ([if g.requires_cd then 1 else 0] ++
      ([if g.deleted then 1 else 0] ++
      List.replicate 4 0)))))) := by
    have : (207 : Nat) = 146 + 61 := by norm_num
    rw [this, ← List.drop_drop, d146,
      show (61 : Nat) = (pascal_string_encode g.args 60).length from e4.symm, List.drop_left]
  have d211 : (pack_game_record g).drop 211 =
      pascal_string_encode g.publisher 30 ++
      (pascal_string_encode g.year 4 ++
      ([g.genre_code % 256] ++
      (word16Bytes g.slowdown_su ++
      ([if g.requires_cd then 1 else 0] ++
      ([if g.deleted then 1 else 0] ++
      List.replicate 4 0))))) := by
    have : (211 : Nat) = 207 + 4 := by norm_num
    rw [this, ← List.drop_drop, d207]
    rfl
  have d242 : (pack_game_record g).drop 242 =
      pascal_string_encode g.year 4 ++
      ([g.genre_code % 256] ++
      (word16Bytes g.slowdown_su ++
      ([if g.requires_cd then 1 else 0] ++
      ([if g.deleted then 1 else 0] ++
      List.replicate 4 0)))) := by
    have : (242 : Nat) = 211 + 31 := by norm_num
    rw [this, ← List.drop_drop, d211,
      show (31 : Nat) = (pascal_string_encode g.publisher 30).length from e5.symm, List.drop_left]
  have d247 : (pack_game_record g).drop 247 =
      [g.genre_code % 256] ++
      (word16Bytes g.slowdown_su ++
      ([if g.requires_cd then 1 else 0] ++
      ([if g.deleted then 1 else 0] ++
      List.replicate 4 0))) := by
    have : (247 : Nat) = 242 + 5 := by norm_num
    rw [this, ← List.drop_drop, d242,
      show (5 : Nat) = (pascal_string_encode g.year 4).length from e6.symm, List.drop_left]
  have hbyte : ∀ i : Nat, byteAt (pack_game_record g) (207 + i) =
      byteAt ((pack_game_record g).drop 207) i := by
    intro i
    simp [byteAt, List.get?_drop]
  have hbyte247 : ∀ i : Nat, byteAt (pack_game_record g) (247 + i) =
      byteAt ((pack_game_record g).drop 247) i := by
    intro i
    simp [byteAt, List.get?_drop]
  simp only [unpackGameCore, specCanonicalize]
  refine Game.mk.injEq _ _ _ _ _ _ _ _ _ _ _ _ _ _ _ _ _ _ _ _ _ _ _ _ _ _ _ _ |>.mpr ?_
  refine ⟨?_, ?_, ?_, ?_, ?_, ?_, ?_, ?_, ?_, ?_, ?_, ?_, ?_, ?_⟩
  · -- title
    have : sliceList (pack_game_record g) 0 51 = pascal_string_encode g.title 50 := by
      simp only [sliceList, List.drop_zero, pack_game_record]
      rw [show (51 : Nat) = (pascal_string_encode g.title 50).length from e1.symm, List.take_left]
    rw [this, pascal_string_decode_encode]
  · -- path
    have : sliceList (pack_game_record g) 51 81 = pascal_string_encode g.path 80 := by
      simp only [sliceList]
      rw [d51, show (81 : Nat) = (pascal_string_encode g.path 80).length from e2.symm,
        List.take_left]
    rw [this, pascal_string_decode_encode]
  · -- command
    have : sliceList (pack_game_record g) 132 14 = pascal_string_encode g.command 13 := by
      simp only [sliceList]
      rw [d132, show (14 : Nat) = (pascal_string_encode g.command 13).length from e3.symm,
        List.take_left]
    rw [this, pascal_string_decode_encode]
  · -- args
    have : sliceList (pack_game_record g) 146 61 = pascal_string_encode g.args 60 := by
      simp only [sliceList]
      rw [d146, show (61 : Nat) = (pascal_string_encode g.args 60).length from e4.symm,
        List.take_left]
    rw [this, pascal_string_decode_encode]
  · -- sound_flags
    have := hbyte 0
    rw [show (207 : Nat) = 207 + 0 from rfl, this, d207]
    simp [byteAt]
    omega
  · -- sound_fm
    have := hbyte 1
    rw [show (208 : Nat) = 207 + 1 from rfl, this, d207]
    simp [byteAt]
    omega
  · -- sound_midi
    have := hbyte 2
    rw [show (209 : Nat) = 207 + 2 from rfl, this, d207]
    simp [byteAt]
    omega
  · -- graphics_flags
    have := hbyte 3
    rw [show (210 : Nat) = 207 + 3 from rfl, this, d207]
    simp [byteAt]
    omega
  · -- publisher
    have : sliceList (pack_game_record g) 211 31 = pascal_string_encode g.publisher 30 := by
      simp only [sliceList]
      rw [d211, show (31 : Nat) = (pascal_string_encode g.publisher 30).length from e5.symm,
        List.take_left]
    rw [this, pascal_string_decode_encode]
  · -- year
    have : sliceList (pack_game_record g) 242 5 = pascal_string_encode g.year 4 := by
      simp only [sliceList]
      rw [d242, show (5 : Nat) = (pascal_string_encode g.year 4).length from e6.symm,
        List.take_left]
    rw [this, pascal_string_decode_encode]
  · -- genre_code
    have := hbyte247 0
    rw [show (247 : Nat) = 247 + 0 from rfl, this, d247]
    simp [byteAt]
    omega
  · -- slowdown_su
    have ha := hbyte247 1
    have hb := hbyte247 2
    rw [show (248 : Nat) = 247 + 1 from rfl, ha, show (249 : Nat) = 247 + 2 from rfl, hb, d247]
    simp [byteAt, word16Bytes]
    omega
  · -- requires_cd
    have := hbyte247 3
    rw [show (250 : Nat) = 247 + 3 from rfl, this, d247]
    cases g.requires_cd <;> simp [byteAt, word16Bytes]
  · -- deleted
    have := hbyte247 4
    rw [show (251 : Nat) = 247 + 4 from rfl, this, d247]
    cases g.deleted <;> simp [byteAt, word16Bytes]

theorem unpack_pack_eq_canonicalize (g : Game)
    (h1 : g.sound_flags ≤ 255) (h2 : g.sound_fm ≤ 255) (h3 : g.sound_midi ≤ 255)
    (h4 : g.graphics_flags ≤ 255) (h5 : g.genre_code ≤ 255) (h6 : g.slowdown_su ≤ 65535) :
    unpack_game_record (pack_game_record g) = some (specCanonicalize g) := by
  rw [unpack_game_record, if_pos (by rw [length_pack_game_record]; rfl),
    unpackGameCore_pack g h1 h2 h3 h4 h5 h6]

/-- C1: for records whose text fields are representable in the legacy
encoding and whose numeric fields are in range, decoding the encoding
reproduces the canonicalized (truncated) field values, and when each text
field is also within its declared maximum length the decoded record equals
the input exactly. -/
theorem c1_roundtrip (g : Game)
    (hct : validChars g.title) (hcp : validChars g.path) (hcc : validChars g.command)
    (hca : validChars g.args) (hcu : validChars g.publisher) (hcy : validChars g.year)
    (h1 : g.sound_flags ≤ 255) (h2 : g.sound_fm ≤ 255) (h3 : g.sound_midi ≤ 255)
    (h4 : g.graphics_flags ≤ 255) (h5 : g.genre_code ≤ 255) (h6 : g.slowdown_su ≤ 65535) :
    unpack_game_record (pack_game_record g) = some (specCanonicalize g) ∧
    (g.title.length ≤ 50 → g.path.length ≤ 80 → g.command.length ≤ 13 →
      g.args.length ≤ 60 → g.publisher.length ≤ 30 → g.year.length ≤ 4 →
      unpack_game_record (pack_game_record g) = some g) := by
  refine ⟨unpack_pack_eq_canonicalize g h1 h2 h3 h4 h5 h6, ?_⟩
  intro l1 l2 l3 l4 l5 l6
  rw [unpack_pack_eq_canonicalize g h1 h2 h3 h4 h5 h6]
  congr 1
  simp [specCanonicalize, List.take_of_length_le, l1, l2, l3, l4, l5, l6]

/-- Witness for C1 at a concrete in-range record. -/
theorem c1_roundtrip_witness :
    validChars (strBytes "WING") ∧
    unpack_game_record (pack_game_record
      { title := strBytes "WING", path := strBytes "C:\\WING", command := strBytes "WING.EXE",
        args := [], sound_flags := 3, sound_fm := 1, sound_midi := 0, graphics_flags := 2,
        publisher := [], year := strBytes "1990", genre_code := 10, slowdown_su := 500,
        requires_cd := false, deleted := false }) = some
      { title := strBytes "WING", path := strBytes "C:\\WING", command := strBytes "WING.EXE",
        args := [], sound_flags := 3, sound_fm := 1, sound_midi := 0, graphics_flags := 2,
        publisher := [], year := strBytes "1990", genre_code := 10, slowdown_su := 500,
        requires_cd := false, deleted := false } := by
  refine ⟨by decide, ?_⟩
  exact (c1_roundtrip _ (by decide) (by decide) (by decide) (by decide) (by decide) (by decide)
    (by decide) (by decide) (by decide) (by decide) (by decide) (by decide)).2
    (by decide) (by decide) (by decide) (by decide) (by decide) (by decide)

/-- Whitespace bytes removed by Python `str.strip` on cp437 text: tab,
LF, VT, FF, CR, space, and byte 255 (which decodes to U+00A0). -/
def isSpaceByte (c : Nat) : Bool :=
  c == 9 || c == 10 || c == 11 || c == 12 || c == 13 || c == 32 || c == 255

/-- Python `str.strip`: drop leading and trailing whitespace. -/
def pyStrip (s : Str) : Str :=
  ((s.dropWhile isSpaceByte).reverse.dropWhile isSpaceByte).reverse

/-- Python `str.upper` restricted to the ASCII letters a..z (the only
case-carrying characters appearing in this development). -/
def upperByte (c : Nat) : Nat := if 97 <= c && c <= 122 then c - 32 else c

/-- One left-to-right pass of `str.replace` with a two-space pattern and a
one-space replacement: each non-overlapping pair of consecutive spaces
becomes a single space, scanning left to right exactly once. -/
def collapseSpacePairs : List Nat -> List Nat
  | [] => []
  | [c] => [c]
  | a :: b :: rest =>
    if a = 32 ∧ b = 32 then 32 :: collapseSpacePairs rest
    else a :: collapseSpacePairs (b :: rest)

/-- `normalize_title` from `lbimport.py`: uppercase, remove colons (byte
58), map hyphens (byte 45) to spaces, one collapsing `replace` pass over
space pairs, then strip. -/
def normalize_title (t : Str) : Str :=
  let t1 := t.map upperByte
  let t2 := t1.filter (fun c => c != 58)
  let t3 := t2.map (fun c => if c = 45 then 32 else c)
  pyStrip (collapseSpacePairs t3)

/-- Does the string contain two consecutive space bytes? -/
def hasDoubleSpace : List Nat -> Bool
  | [] => false
  | [_] => false
  | a :: b :: rest => (a == 32 && b == 32) || hasDoubleSpace (b :: rest)

/-- Does the string contain three consecutive space bytes? -/
def hasTripleSpace : List Nat -> Bool
  | [] => false
  | [_] => false
  | [_, _] => false
  | a :: b :: c :: rest => (a == 32 && b == 32 && c == 32) || hasTripleSpace (b :: c :: rest)

theorem hasDoubleSpace_cons_iff (c : Nat) (xs : List Nat) :
    hasDoubleSpace (c :: xs) = true <-> (c = 32 /\ xs.head? = some 32) \/ hasDoubleSpace xs = true := by
  cases xs with
  | nil => simp [hasDoubleSpace]
  | cons a t => simp [hasDoubleSpace]

theorem hasDoubleSpace_append_right (a b : List Nat) (h : hasDoubleSpace b = true) :
    hasDoubleSpace (a ++ b) = true := by
  induction a with
  | nil => simpa using h
  | cons c t ih =>
    rw [List.cons_append]
    exact (hasDoubleSpace_cons_iff _ _).mpr (Or.inr ih)

theorem hasDoubleSpace_append_left (a b : List Nat) (h : hasDoubleSpace a = true) :
    hasDoubleSpace (a ++ b) = true := by
  induction a with
  | nil => simp [hasDoubleSpace] at h
  | cons c t ih =>
    rcases (hasDoubleSpace_cons_iff c t).mp h with ⟨hc, ht⟩ | hrec
    · rw [List.cons_append]
      refine (hasDoubleSpace_cons_iff _ _).mpr (Or.inl ⟨hc, ?_⟩)
      cases t with
      | nil => simp at ht
      | cons x u => simpa using ht
    · rw [List.cons_append]
      exact (hasDoubleSpace_cons_iff _ _).mpr (Or.inr (ih hrec))

theorem hasDoubleSpace_infix (x b y : List Nat) (h : hasDoubleSpace b = true) :
    hasDoubleSpace (x ++ b ++ y) = true := by
  rw [List.append_assoc]
  exact hasDoubleSpace_append_right _ _ (hasDoubleSpace_append_left _ _ h)

theorem pyStrip_infix (s : Str) : ∃ x y, s = x ++ pyStrip s ++ y := by
  refine ⟨s.takeWhile isSpaceByte,
    ((s.dropWhile isSpaceByte).reverse.takeWhile isSpaceByte).reverse, ?_⟩
  have h1 : s.takeWhile isSpaceByte ++ s.dropWhile isSpaceByte = s :=
    List.takeWhile_append_dropWhile _ _
  have h2 : (s.dropWhile isSpaceByte).reverse.takeWhile isSpaceByte ++
      (s.dropWhile isSpaceByte).reverse.dropWhile isSpaceByte =
      (s.dropWhile isSpaceByte).reverse :=
    List.takeWhile_append_dropWhile _ _
  have h3 : s.dropWhile isSpaceByte =
      pyStrip s ++ ((s.dropWhile isSpaceByte).reverse.takeWhile isSpaceByte).reverse := by
    have h2r := congrArg List.reverse h2
    rw [List.reverse_append, List.reverse_reverse] at h2r
    exact h2r.symm
  calc s = s.takeWhile isSpaceByte ++ s.dropWhile isSpaceByte := h1.symm
    _ = s.takeWhile isSpaceByte ++
        (pyStrip s ++ ((s.dropWhile isSpaceByte).reverse.takeWhile isSpaceByte).reverse) := by
        rw [<- h3]
    _ = s.takeWhile isSpaceByte ++ pyStrip s ++
        ((s.dropWhile isSpaceByte).reverse.takeWhile isSpaceByte).reverse := by
        rw [List.append_assoc]

theorem hasDoubleSpace_pyStrip (s : Str) (h : hasDoubleSpace s = false) :
    hasDoubleSpace (pyStrip s) = false := by
  cases hd : hasDoubleSpace (pyStrip s) with
  | false => rfl
  | true =>
    obtain ⟨x, y, hxy⟩ := pyStrip_infix s
    rw [hxy, hasDoubleSpace_infix _ _ _ hd] at h
    exact Bool.noConfusion h

theorem collapseSpacePairs_head (l : List Nat) :
    (collapseSpacePairs l).head? = l.head? := by
  match l with
  | [] => rfl
  | [c] => rfl
  | a :: b :: rest =>
    by_cases hab : a = 32 ∧ b = 32
    · obtain ⟨ha, hb⟩ := hab
      subst ha; subst hb
      simp [collapseSpacePairs]
    · simp [collapseSpacePairs, hab]

theorem hasTripleSpace_tail (c : Nat) (l : List Nat) (h : hasTripleSpace (c :: l) = false) :
    hasTripleSpace l = false := by
  cases l with
  | nil => rfl
  | cons a t =>
    cases t with
    | nil => rfl
    | cons b u => exact (Bool.or_eq_false_iff.mp h).2

theorem hasTripleSpace_head (rest : List Nat) (h : hasTripleSpace (32 :: 32 :: rest) = false) :
    rest.head? ≠ some 32 := by
  cases rest with
  | nil => simp
  | cons a t =>
    intro hcon
    simp at hcon
    subst hcon
    simp [hasTripleSpace] at h

theorem hasDoubleSpace_collapse :
    ∀ l : List Nat, hasTripleSpace l = false -> hasDoubleSpace (collapseSpacePairs l) = false
  | [] => fun _ => rfl
  | [c] => fun _ => by simp [collapseSpacePairs, hasDoubleSpace]
  | a :: b :: rest => fun h => by
    by_cases hab : a = 32 ∧ b = 32
    · obtain ⟨ha, hb⟩ := hab
      subst ha; subst hb
      have hcoll : collapseSpacePairs (32 :: 32 :: rest) = 32 :: collapseSpacePairs rest := by
        simp [collapseSpacePairs]
      have hhead : rest.head? ≠ some 32 := hasTripleSpace_head rest h
      have hrest : hasTripleSpace rest = false :=
        hasTripleSpace_tail _ _ (hasTripleSpace_tail _ _ h)
      have hrec := hasDoubleSpace_collapse rest hrest
      rw [hcoll, Bool.eq_false_iff]
      intro hcon
      rcases (hasDoubleSpace_cons_iff _ _).mp hcon with ⟨_, hh⟩ | hdd
      · rw [collapseSpacePairs_head] at hh
        exact hhead hh
      · rw [hdd] at hrec
        exact Bool.noConfusion hrec
    · have hcoll : collapseSpacePairs (a :: b :: rest) = a :: collapseSpacePairs (b :: rest) := by
        simp [collapseSpacePairs, hab]
      have hrest : hasTripleSpace (b :: rest) = false := hasTripleSpace_tail _ _ h
      have hrec := hasDoubleSpace_collapse (b :: rest) hrest
      rw [hcoll, Bool.eq_false_iff]
      intro hcon
      rcases (hasDoubleSpace_cons_iff _ _).mp hcon with ⟨ha, hh⟩ | hdd
      · rw [collapseSpacePairs_head] at hh
        have hb : b = 32 := by simpa using hh
        exact hab ⟨ha, hb⟩
      · rw [hdd] at hrec
        exact Bool.noConfusion hrec

/-- C6 counterexample: an input with three consecutive spaces normalizes
to a string that still contains two consecutive spaces, because the
space-pair replacement is a single left-to-right pass; so the claim that
the normalized result of any input never contains two consecutive spaces
is false on the code. -/
theorem c6_counterexample :
    normalize_title [65, 32, 32, 32, 66] = [65, 32, 32, 66] ∧
    hasDoubleSpace (normalize_title [65, 32, 32, 32, 66]) = true := by
  constructor <;> rfl

/-- C6 (amended): normalization uppercases, removes colons, replaces
hyphens with spaces, performs a single left-to-right pass replacing each
non-overlapping pair of consecutive spaces by one space, and trims; the
result contains no two consecutive spaces whenever the intermediate string
obtained after uppercasing, colon removal and hyphen replacement contains
no run of three or more consecutive spaces. -/
theorem c6_amended (t : Str)
    (h : hasTripleSpace (((t.map upperByte).filter (fun c => c != 58)).map
      (fun c => if c = 45 then 32 else c)) = false) :
    hasDoubleSpace (normalize_title t) = false := by
  apply hasDoubleSpace_pyStrip
  exact hasDoubleSpace_collapse _ h

/-- Witness for the amended C6 at a concrete title. -/
theorem c6_amended_witness :
    hasTripleSpace ((([72, 32, 32, 120].map upperByte).filter
      (fun c => c != 58)).map (fun c => if c = 45 then 32 else c)) = false ∧
    hasDoubleSpace (normalize_title [72, 32, 32, 120]) = false :=
  ⟨by decide, c6_amended [72, 32, 32, 120] (by decide)⟩


/-- Python substring test `sub in s`. -/
def containsSub (s sub : List Nat) : Bool :=
  (List.range (s.length + 1)).any (fun i => sub.isPrefixOf (s.drop i))

/-- `GENRE_MAP` from `lbgenre.py`, in its source order (byte 39 is the
apostrophe). -/
def GENRE_MAP : List (Str × Nat) :=
  [ (strBytes "(None)", 0),
    (strBytes "Action", 1),
    (strBytes "Adventure", 2),
    (strBytes "Beat " ++ [39] ++ strBytes "em Up", 3),
    (strBytes "Board Game", 4),
    (strBytes "Casino", 5),
    (strBytes "Compilation", 6),
    (strBytes "Construction and Management Simulation", 7),
    (strBytes "Education", 8),
    (strBytes "Fighting", 9),
    (strBytes "Flight Simulator", 10),
    (strBytes "Horror", 11),
    (strBytes "Life Simulation", 12),
    (strBytes "MMO", 13),
    (strBytes "Music", 14),
    (strBytes "Party", 15),
    (strBytes "Pinball", 16),
    (strBytes "Platform", 17),
    (strBytes "Puzzle", 18),
    (strBytes "Quiz", 19),
    (strBytes "Racing", 20),
    (strBytes "Role-Playing", 21),
    (strBytes "Sandbox", 22),
    (strBytes "Shooter", 23),
    (strBytes "Sports", 24),
    (strBytes "Stealth", 25),
    (strBytes "Strategy", 26),
    (strBytes "Vehicle Simulation", 27),
    (strBytes "Visual Novel", 28) ]

/-- `genre_name_to_code` from `lbgenre.py`: empty label resolves to 0,
then exact table lookup, then case-insensitive lookup in table order, then
the ordered keyword-containment chain, else 0. -/
def genre_name_to_code (name : Str) : Nat :=
  if name = [] then 0
  else match GENRE_MAP.find? (fun p => p.1 == name) with
  | some p => p.2
  | none =>
    let nu := name.map upperByte
    match GENRE_MAP.find? (fun p => p.1.map upperByte == nu) with
    | some p => p.2
    | none =>
      if containsSub nu (strBytes "ACTION") then 1
      else if containsSub nu (strBytes "ADVENTURE") then 2
      else if containsSub nu (strBytes "BEAT") || containsSub nu (strBytes "BRAWL") then 3
      else if containsSub nu (strBytes "BOARD") then 4
      else if containsSub nu (strBytes "CASINO") then 5
      else if containsSub nu (strBytes "COMPILATION") then 6
      else if containsSub nu (strBytes "CONSTRUCTION") || containsSub nu (strBytes "MANAGEMENT")
        || containsSub nu (strBytes "BUILDING") then 7
      else if containsSub nu (strBytes "EDUCATION") || containsSub nu (strBytes "LEARNING") then 8
      else if containsSub nu (strBytes "FIGHTING") then 9
      else if containsSub nu (strBytes "FLIGHT") then 10
      else if containsSub nu (strBytes "HORROR") then 11
      else if containsSub nu (strBytes "LIFE") && containsSub nu (strBytes "SIM") then 12
      else if containsSub nu (strBytes "MMO") || containsSub nu (strBytes "ONLINE") then 13
      else if containsSub nu (strBytes "MUSIC") || containsSub nu (strBytes "RHYTHM") then 14
      else if containsSub nu (strBytes "PARTY") then 15
      else if containsSub nu (strBytes "PINBALL") then 16
      else if containsSub nu (strBytes "PLATFORM") || containsSub nu (strBytes "PLATFORMER") then 17
      else if containsSub nu (strBytes "PUZZLE") then 18
      else if containsSub nu (strBytes "QUIZ") || containsSub nu (strBytes "TRIVIA") then 19
      else if containsSub nu (strBytes "RACING") || containsSub nu (strBytes "DRIVING") then 20
      else if containsSub nu (strBytes "ROLE") || containsSub nu (strBytes "RPG") then 21
      else if containsSub nu (strBytes "SANDBOX") then 22
      else if containsSub nu (strBytes "SHOOT") || containsSub nu (strBytes "FPS")
        || containsSub nu (strBytes "SHMUP") then 23
      else if containsSub nu (strBytes "SPORT") then 24
      else if containsSub nu (strBytes "STEALTH") then 25
      else if containsSub nu (strBytes "STRATEG") then 26
      else if containsSub nu (strBytes "VEHICLE") && containsSub nu (strBytes "SIM") then 27
      else if containsSub nu (strBytes "VISUAL") && containsSub nu (strBytes "NOVEL") then 28
      else 0

/-- The keyword heuristics as an explicit ordered table of
(predicate, code) pairs, following the spec description of stage 3. -/
def GENRE_HEURISTICS : List ((Str → Bool) × Nat) :=
  [ (fun nu => containsSub nu (strBytes "ACTION"), 1),
    (fun nu => containsSub nu (strBytes "ADVENTURE"), 2),
    (fun nu => containsSub nu (strBytes "BEAT") || containsSub nu (strBytes "BRAWL"), 3),
    (fun nu => containsSub nu (strBytes "BOARD"), 4),
    (fun nu => containsSub nu (strBytes "CASINO"), 5),
    (fun nu => containsSub nu (strBytes "COMPILATION"), 6),
    (fun nu => containsSub nu (strBytes "CONSTRUCTION") || containsSub nu (strBytes "MANAGEMENT")
      || containsSub nu (strBytes "BUILDING"), 7),
    (fun nu => containsSub nu (strBytes "EDUCATION") || containsSub nu (strBytes "LEARNING"), 8),
    (fun nu => containsSub nu (strBytes "FIGHTING"), 9),
    (fun nu => containsSub nu (strBytes "FLIGHT"), 10),
    (fun nu => containsSub nu (strBytes "HORROR"), 11),
    (fun nu => containsSub nu (strBytes "LIFE") && containsSub nu (strBytes "SIM"), 12),
    (fun nu => containsSub nu (strBytes "MMO") || containsSub nu (strBytes "ONLINE"), 13),
    (fun nu => containsSub nu (strBytes "MUSIC") || containsSub nu (strBytes "RHYTHM"), 14),
    (fun nu => containsSub nu (strBytes "PARTY"), 15),
    (fun nu => containsSub nu (strBytes "PINBALL"), 16),
    (fun nu => containsSub nu (strBytes "PLATFORM") || containsSub nu (strBytes "PLATFORMER"), 17),
    (fun nu => containsSub nu (strBytes "PUZZLE"), 18),
    (fun nu => containsSub nu (strBytes "QUIZ") || containsSub nu (strBytes "TRIVIA"), 19),
    (fun nu => containsSub nu (strBytes "RACING") || containsSub nu (strBytes "DRIVING"), 20),
    (fun nu => containsSub nu (strBytes "ROLE") || containsSub nu (strBytes "RPG"), 21),
    (fun nu => containsSub nu (strBytes "SANDBOX"), 22),
    (fun nu => containsSub nu (strBytes "SHOOT") || containsSub nu (strBytes "FPS")
      || containsSub nu (strBytes "SHMUP"), 23),
    (fun nu => containsSub nu (strBytes "SPORT"), 24),
    (fun nu => containsSub nu (strBytes "STEALTH"), 25),
    (fun nu => containsSub nu (strBytes "STRATEG"), 26),
    (fun nu => containsSub nu (strBytes "VEHICLE") && containsSub nu (strBytes "SIM"), 27),
    (fun nu => containsSub nu (strBytes "VISUAL") && containsSub nu (strBytes "NOVEL"), 28) ]

/-- First heuristic of the ordered table whose predicate holds, top to
bottom; 0 when none matches. -/
def firstHeuristic : List ((Str → Bool) × Nat) → Str → Nat
  | [], _ => 0
  | (p, c) :: rest, nu => if p nu then c else firstHeuristic rest nu

/-- Stage-structured genre resolution in the words of the spec: exact
table match, then case-insensitive match, then the ordered heuristics with
first match winning, else 0. -/
def resolveStaged (name : Str) : Nat :=
  if name = [] then 0
  else match GENRE_MAP.find? (fun p => p.1 == name) with
  | some p => p.2
  | none =>
    let nu := name.map upperByte
    match GENRE_MAP.find? (fun p => p.1.map upperByte == nu) with
    | some p => p.2
    | none => firstHeuristic GENRE_HEURISTICS nu

/-- C8: genre resolution proceeds exact, then case-insensitive, then the
ordered keyword heuristics with the first matching heuristic winning; a
label containing both ACTION and RPG resolves to the earlier heuristic's
code 1; the empty label and an unmatched label resolve to 0. -/
theorem c8_genre_resolution :
    (∀ name : Str, genre_name_to_code name = resolveStaged name) ∧
    genre_name_to_code (strBytes "ACTION RPG") = 1 ∧
    genre_name_to_code (strBytes "action") = 1 ∧
    genre_name_to_code [] = 0 ∧
    genre_name_to_code (strBytes "XYZZY") = 0 := by
  refine ⟨fun name => ?_, by decide, by decide, by decide, by decide⟩
  rfl

/-- Autojunk rule of `difflib.SequenceMatcher`: with `b` of length at
least 200, elements occurring in more than one percent of `b` are dropped
from the index. -/
def isPopular (b : List Nat) (x : Nat) : Bool :=
  decide (200 ≤ b.length) && decide (b.length / 100 + 1 < b.count x)

/-- The `b2j` index of `difflib.SequenceMatcher`: ascending positions of
`x` in `b`, empty for popular elements. -/
def b2j (b : List Nat) (x : Nat) : List Nat :=
  if isPopular b x then []
  else (List.range b.length).filter (fun j => b.get? j == some x)

/-- The dynamic-programming core of `find_longest_match`: for each `i` in
`a[alo:ahi]` walk the positions of `a[i]` in `b[blo:bhi]` in ascending
order, extending runs recorded in the previous row, and keep the first
maximal run found. -/
def flmDP (a b : List Nat) (alo ahi blo bhi : Nat) : Nat × Nat × Nat :=
  let step := fun (st : (Nat → Nat) × (Nat × Nat × Nat)) (i : Nat) =>
    let j2len := st.1
    let js := (b2j b (byteAt a i)).filter (fun j => decide (blo ≤ j) && decide (j < bhi))
    js.foldl (fun (st2 : (Nat → Nat) × (Nat × Nat × Nat)) j =>
      let k := (if j = 0 then 0 else j2len (j - 1)) + 1
      let newRow := fun j2 => if j2 = j then k else st2.1 j2
      let best := st2.2
      (newRow, if best.2.2 < k then (i + 1 - k, j + 1 - k, k) else best))
      ((fun _ => 0), st.2)
  ((List.range' alo (ahi - alo)).foldl step ((fun _ => 0), (alo, blo, 0))).2

/-- Backward extension loop of `find_longest_match` (the junk set is
empty, so the junk guard is always vacuous).  Structural recursion on
explicit fuel; each step lowers `besti` by one and the guard needs
`alo < besti`, so the fuel `besti` supplied at the call site never runs
out before the guard fails. -/
def extBack (a b : List Nat) (alo blo : Nat) : Nat → Nat → Nat → Nat → Nat × Nat × Nat
  | 0, besti, bestj, bestsize => (besti, bestj, bestsize)
  | fuel + 1, besti, bestj, bestsize =>
    if alo < besti ∧ blo < bestj ∧ byteAt a (besti - 1) = byteAt b (bestj - 1) then
      extBack a b alo blo fuel (besti - 1) (bestj - 1) (bestsize + 1)
    else (besti, bestj, bestsize)

/-- Forward extension loop of `find_longest_match`.  Structural recursion
on explicit fuel; each step raises `bestsize` by one and the guard needs
`besti + bestsize < ahi`, so the fuel `ahi` supplied at the call site
never runs out before the guard fails. -/
def extFwd (a b : List Nat) (ahi bhi : Nat) : Nat → Nat → Nat → Nat → Nat
  | 0, _, _, bestsize => bestsize
  | fuel + 1, besti, bestj, bestsize =>
    if besti + bestsize < ahi ∧ bestj + bestsize < bhi ∧
        byteAt a (besti + bestsize) = byteAt b (bestj + bestsize) then
      extFwd a b ahi bhi fuel besti bestj (bestsize + 1)
    else bestsize

/-- `find_longest_match` of `difflib.SequenceMatcher` with no junk:
dynamic programming pass, then backward and forward extension (the two
junk-extension loops never fire with an empty junk set). -/
def find_longest_match (a b : List Nat) (alo ahi blo bhi : Nat) : Nat × Nat × Nat :=
  let dp := flmDP a b alo ahi blo bhi
  let e1 := extBack a b alo blo dp.1 dp.1 dp.2.1 dp.2.2
  (e1.1, e1.2.1, extFwd a b ahi bhi ahi e1.1 e1.2.1 e1.2.2)

/-- Total size of all matching blocks: the recursive decomposition of
`get_matching_blocks`, summing only the sizes (the sort-and-merge step of
the original preserves this sum).  Recursion is on explicit fuel; every
level strictly shrinks the two intervals, so the fuel supplied by
`matchesTotal` (total interval size plus one) is always sufficient. -/
def matchesTotalFuel (a b : List Nat) : Nat → Nat → Nat → Nat → Nat → Nat
  | 0, _, _, _, _ => 0
  | fuel + 1, alo, ahi, blo, bhi =>
    let m := find_longest_match a b alo ahi blo bhi
    if m.2.2 = 0 then 0
    else matchesTotalFuel a b fuel alo m.1 blo m.2.1 + m.2.2 +
      matchesTotalFuel a b fuel (m.1 + m.2.2) ahi (m.2.1 + m.2.2) bhi

/-- Sum of matching-block sizes over the whole strings. -/
def matchesTotal (a b : List Nat) : Nat :=
  matchesTotalFuel a b (a.length + b.length + 1) 0 a.length 0 b.length

/-- `SequenceMatcher.ratio`: `2 M / T` as an exact rational (`T = 0`
yields 1), where CPython computes the same quotient in floating point. -/
def pyRatio (a b : List Nat) : ℚ :=
  if a.length + b.length = 0 then 1
  else mkRat (2 * matchesTotal a b) (a.length + b.length)

/-- `similarity_ratio` from `lbimport.py`: ratio of the two normalized
titles. -/
def similarity_ratio (a b : Str) : ℚ :=
  pyRatio (normalize_title a) (normalize_title b)

/-- One external metadata entry as produced by `parse_launchbox_xml`. -/
structure Entry where
  title : Str
  publisher : Str
  year : Str
  genre_code : Nat
  database_id : Int
  guid : Str
  deriving Repr, DecidableEq

/-- Signed 32-bit little-endian encoding, `struct.pack_into` with format
`<i` (two's complement; CPython raises outside the 32-bit range, where
this model wraps — every value in scope below is in range). -/
def int32Bytes (v : Int) : List Nat :=
  let u := (v % (2 ^ 32 : Int)).toNat
  [u % 256, u / 256 % 256, u / 65536 % 256, u / 16777216 % 256]

/-- `pack_mapping_record` from `lbimport.py`: slot word, signed id, guid
truncated to 36 characters as length byte plus data, zero padding to 48
bytes. -/
def pack_mapping_record (game_index : Nat) (database_id : Int) (guid : Str) : List Nat :=
  let guidEnc := guid.take 36
  word16Bytes game_index ++ int32Bytes database_id ++
  (guidEnc.length :: guidEnc) ++ List.replicate (41 - guidEnc.length) 0

/-- Field extraction of `unpack_mapping_record` from `lbimport.py` (all
call sites pass exactly 48 bytes). -/
def unpackMappingCore (data : List Nat) : Nat × Int × Str :=
  let game_index := byteAt data 0 + 256 * byteAt data 1
  let u := byteAt data 2 + 256 * byteAt data 3 + 65536 * byteAt data 4 +
    16777216 * byteAt data 5
  let database_id : Int := if u < 2147483648 then (u : Int) else (u : Int) - 4294967296
  (game_index, database_id, sliceList data 7 (min (byteAt data 6) 36))

/-- One iteration of the mapping-file loading loop: records with slot 0
are skipped, a positive id feeds the id index, a non-empty GUID feeds the
GUID index. -/
def loadStep (data : List Nat) (st : List (Int × Nat) × List (Str × Nat)) (i : Nat) :
    List (Int × Nat) × List (Str × Nat) :=
  let r := unpackMappingCore (sliceList data (i * MAP_RECORD_SIZE) MAP_RECORD_SIZE)
  if 0 < r.1 then
    (if 0 < r.2.1 then (r.2.1, r.1) :: st.1 else st.1,
     if r.2.2 ≠ [] then (r.2.2, r.1) :: st.2 else st.2)
  else st

/-- `load_mapping_file` from `lbimport.py`, reading from bytes (a missing
file is the empty byte string: both give two empty indices).  The two
Python dicts are modelled as association lists consed at the front, so a
later record overwrites an earlier one for lookups. -/
def load_mapping_file (data : List Nat) : List (Int × Nat) × List (Str × Nat) :=
  (List.range (data.length / MAP_RECORD_SIZE)).foldl (loadStep data) ([], [])

/-- Python `dict.get`: the most recently inserted binding of the key. -/
def dget {α β : Type} [BEq α] (m : List (α × β)) (k : α) : Option β :=
  (m.find? (fun p => p.1 == k)).map (fun p => p.2)

/-- `save_mapping_file` from `lbimport.py`: the packed mapping records,
back to back, replacing any prior file contents. -/
def save_mapping_file (mappings_list : List (Nat × Int × Str)) : List Nat :=
  (mappings_list.map (fun m => pack_mapping_record m.1 m.2.1 m.2.2)).join

/-- Which tier produced a match (`match_type` in the source). -/
inductive MatchKind where
  | exactId
  | exactGuid
  | fuzzy
  deriving Repr, DecidableEq

/-- The exact-mapping loop of `import_metadata` (source lines 266-281):
entries in order; for each entry first the database-id check, then the
GUID check; first hit wins. -/
def findExact (mappings : List (Int × Nat)) (guidMappings : List (Str × Nat))
    (gameIndex : Nat) : List Entry → Option (Entry × MatchKind)
  | [] => none
  | e :: rest =>
    if 0 < e.database_id ∧ dget mappings e.database_id = some gameIndex then
      some (e, MatchKind.exactId)
    else if e.guid ≠ [] ∧ dget guidMappings e.guid = some gameIndex then
      some (e, MatchKind.exactGuid)
    else findExact mappings guidMappings gameIndex rest

/-- The fuzzy-matching fold of `import_metadata` (source lines 285-290):
track the best ratio, strictly-greater updates only. -/
def fuzzyBest (title : Str) (entries : List Entry) : ℚ × Option Entry :=
  entries.foldl (fun st e =>
    let r := similarity_ratio title e.title
    if st.1 < r then (r, some e) else st) (0, none)

/-- The fuzzy fallback with its 0.8 threshold (source lines 292-294). -/
def fuzzyMatch (title : Str) (entries : List Entry) : Option Entry :=
  let best := fuzzyBest title entries
  if best.1 < mkRat 4 5 then none else best.2

/-- The whole matching phase for one record: exact tiers, then fuzzy. -/
def lbMatch (mappings : List (Int × Nat)) (guidMappings : List (Str × Nat))
    (entries : List Entry) (gameIndex : Nat) (title : Str) : Option (Entry × MatchKind) :=
  match findExact mappings guidMappings gameIndex entries with
  | some r => some r
  | none => (fuzzyMatch title entries).map (fun e => (e, MatchKind.fuzzy))

/-- The merge step of `import_metadata` (source lines 306-312): fill
publisher and year only when empty or whitespace-only, genre only when 0. -/
def mergeGame (g : Game) (e : Entry) : Game :=
  { g with
    publisher := if g.publisher = [] ∨ (pyStrip g.publisher).length = 0
      then e.publisher else g.publisher
    year := if g.year = [] ∨ (pyStrip g.year).length = 0 then e.year else g.year
    genre_code := if g.genre_code = 0 then e.genre_code else g.genre_code }

/-- Processing of one record inside the loop of `import_metadata`:
deleted records are copied verbatim; otherwise match, merge, record a
mapping when the matched entry carries an id or GUID, count an update when
a field changed, and re-serialize. -/
def processRecord (mappings : List (Int × Nat)) (guidMappings : List (Str × Nat))
    (entries : List Entry) (gameIndex : Nat) (recordData : List Nat) :
    List Nat × Nat × List (Nat × Int × Str) :=
  let game := unpackGameCore recordData
  if game.deleted then (recordData, 0, [])
  else
    match lbMatch mappings guidMappings entries gameIndex game.title with
    | some (e, _) =>
      let game2 := mergeGame game e
      let nm := if 0 < e.database_id ∨ e.guid ≠ [] then [(gameIndex, e.database_id, e.guid)] else []
      let upd := if game2.publisher ≠ game.publisher ∨ game2.year ≠ game.year ∨
          game2.genre_code ≠ game.genre_code then 1 else 0
      (pack_game_record game2, upd, nm)
    | none => (pack_game_record game, 0, [])

/-- One iteration of the record loop, accumulating output bytes, the
update count and the new mapping list. -/
def importStep (mappings : List (Int × Nat)) (guidMappings : List (Str × Nat))
    (entries : List Entry) (data : List Nat)
    (st : List Nat × Nat × List (Nat × Int × Str)) (i : Nat) :
    List Nat × Nat × List (Nat × Int × Str) :=
  let r := processRecord mappings guidMappings entries (i + 1)
    (sliceList data (i * RECORD_SIZE) RECORD_SIZE)
  (st.1 ++ r.1, st.2.1 + r.2.1, st.2.2 ++ r.2.2)

/-- Observable result of a successful non-dry-run `import_metadata`. -/
structure ImportResult where
  dbBytes : List Nat
  updates : Nat
  newMappings : List (Nat × Int × Str)
  mapFileAfter : List Nat
  deriving Repr, DecidableEq

/-- `import_metadata` from `lbimport.py` as a pure function from the
database bytes, parsed external entries and mapping-file bytes to the
written database bytes, reported update count, collected mappings and
resulting mapping-file contents (the mapping file is rewritten only when
at least one mapping was collected, source line 365). -/
def import_metadata (data : List Nat) (entries : List Entry) (mapFile : List Nat) :
    ImportResult :=
  let mp := load_mapping_file mapFile
  let st := (List.range (data.length / RECORD_SIZE)).foldl
    (importStep mp.1 mp.2 entries data) ([], 0, [])
  { dbBytes := st.1, updates := st.2.1, newMappings := st.2.2,
    mapFileAfter := if st.2.2 = [] then mapFile else save_mapping_file st.2.2 }

theorem mergeGame_eq_iff (g : Game) (e : Entry) :
    ((mergeGame g e).publisher = g.publisher ∧ (mergeGame g e).year = g.year ∧
      (mergeGame g e).genre_code = g.genre_code) ↔ mergeGame g e = g := by
  constructor
  · rintro ⟨h1, h2, h3⟩
    cases g
    simp only [mergeGame] at h1 h2 h3 ⊢
    simp_all [Game.mk.injEq]
  · intro h
    exact ⟨congrArg Game.publisher h, congrArg Game.year h, congrArg Game.genre_code h⟩

/-- C3: the merge overwrites publisher and year only when empty or
whitespace-only, genre code only when 0, leaves every other field
untouched, and the changed condition driving the update count (at least
one of the three fields differs) holds exactly when the merged record
differs from the pre-merge record. -/
theorem c3_merge_policy (g : Game) (e : Entry) :
    ((g.publisher = [] ∨ (pyStrip g.publisher).length = 0) →
      (mergeGame g e).publisher = e.publisher) ∧
    (¬(g.publisher = [] ∨ (pyStrip g.publisher).length = 0) →
      (mergeGame g e).publisher = g.publisher) ∧
    ((g.year = [] ∨ (pyStrip g.year).length = 0) → (mergeGame g e).year = e.year) ∧
    (¬(g.year = [] ∨ (pyStrip g.year).length = 0) → (mergeGame g e).year = g.year) ∧
    (g.genre_code = 0 → (mergeGame g e).genre_code = e.genre_code) ∧
    (g.genre_code ≠ 0 → (mergeGame g e).genre_code = g.genre_code) ∧
    (mergeGame g e).title = g.title ∧ (mergeGame g e).path = g.path ∧
    (mergeGame g e).command = g.command ∧ (mergeGame g e).args = g.args ∧
    (mergeGame g e).sound_flags = g.sound_flags ∧ (mergeGame g e).sound_fm = g.sound_fm ∧
    (mergeGame g e).sound_midi = g.sound_midi ∧
    (mergeGame g e).graphics_flags = g.graphics_flags ∧
    (mergeGame g e).slowdown_su = g.slowdown_su ∧
    (mergeGame g e).requires_cd = g.requires_cd ∧ (mergeGame g e).deleted = g.deleted ∧
    (((mergeGame g e).publisher ≠ g.publisher ∨ (mergeGame g e).year ≠ g.year ∨
      (mergeGame g e).genre_code ≠ g.genre_code) ↔ mergeGame g e ≠ g) := by
  refine ⟨?_, ?_, ?_, ?_, ?_, ?_, rfl, rfl, rfl, rfl, rfl, rfl, rfl, rfl, rfl, rfl, rfl, ?_⟩
  · intro h; simp only [mergeGame]; rw [if_pos h]
  · intro h; simp only [mergeGame]; rw [if_neg h]
  · intro h; simp only [mergeGame]; rw [if_pos h]
  · intro h; simp only [mergeGame]; rw [if_neg h]
  · intro h; simp only [mergeGame]; rw [if_pos h]
  · intro h; simp only [mergeGame]; rw [if_neg h]
  · constructor
    · intro h he
      rcases h with h | h | h <;> exact h (by rw [he])
    · intro h
      by_contra hno
      push_neg at hno
      exact h ((mergeGame_eq_iff g e).mp ⟨hno.1, hno.2.1, hno.2.2⟩)

/-- Witness for C3 at a concrete record and entry: the empty publisher is
filled from the entry. -/
theorem c3_merge_policy_witness :
    (mergeGame
      { title := [87], path := [], command := [], args := [], sound_flags := 0,
        sound_fm := 0, sound_midi := 0, graphics_flags := 0, publisher := [],
        year := [49, 57, 57, 48], genre_code := 5, slowdown_su := 0,
        requires_cd := false, deleted := false }
      { title := [87], publisher := [79, 114], year := [50, 48, 48, 48], genre_code := 9,
        database_id := 42, guid := [] }).publisher = [79, 114] :=
  (c3_merge_policy _ _).1 (Or.inl rfl)

/-- C7 (amended): a run that collects at least one mapping entry rewrites
the mapping file to exactly the serialization of the collected entries,
with no merge with prior contents; a run that collects none leaves the
mapping file exactly as it was, prior records included. -/
theorem c7_mapping_rewrite (data : List Nat) (entries : List Entry) (mapFile : List Nat) :
    ((import_metadata data entries mapFile).newMappings ≠ [] →
      (import_metadata data entries mapFile).mapFileAfter =
        save_mapping_file (import_metadata data entries mapFile).newMappings) ∧
    ((import_metadata data entries mapFile).newMappings = [] →
      (import_metadata data entries mapFile).mapFileAfter = mapFile) := by
  unfold import_metadata
  constructor <;> intro h <;> simp_all

/-- C7 counterexample: a run over an empty database collects no mapping
entries, and the mapping file keeps its prior record instead of being
replaced by the empty serialization, so the claim that the file always
equals the serialization of the collected entries is false on the code. -/
theorem c7_counterexample :
    (import_metadata [] [] (pack_mapping_record 1 7 [])).newMappings = [] ∧
    (import_metadata [] [] (pack_mapping_record 1 7 [])).mapFileAfter =
      pack_mapping_record 1 7 [] ∧
    pack_mapping_record 1 7 [] ≠ save_mapping_file [] := by
  refine ⟨rfl, rfl, by decide⟩

set_option maxRecDepth 10000 in
/-- Witness for the amended C7: a one-record, one-entry run collects a
mapping and the file becomes exactly its serialization. -/
theorem c7_mapping_rewrite_witness :
    (import_metadata
      (pack_game_record
        { title := [90, 90], path := [], command := [], args := [], sound_flags := 0,
          sound_fm := 0, sound_midi := 0, graphics_flags := 0, publisher := [],
          year := [], genre_code := 0, slowdown_su := 0, requires_cd := false,
          deleted := false })
      [{ title := [90, 90], publisher := [80], year := [], genre_code := 0,
         database_id := 7, guid := [] }] []).newMappings ≠ [] ∧
    (import_metadata
      (pack_game_record
        { title := [90, 90], path := [], command := [], args := [], sound_flags := 0,
          sound_fm := 0, sound_midi := 0, graphics_flags := 0, publisher := [],
          year := [], genre_code := 0, slowdown_su := 0, requires_cd := false,
          deleted := false })
      [{ title := [90, 90], publisher := [80], year := [], genre_code := 0,
         database_id := 7, guid := [] }] []).mapFileAfter =
      save_mapping_file (import_metadata
      (pack_game_record
        { title := [90, 90], path := [], command := [], args := [], sound_flags := 0,
          sound_fm := 0, sound_midi := 0, graphics_flags := 0, publisher := [],
          year := [], genre_code := 0, slowdown_su := 0, requires_cd := false,
          deleted := false })
      [{ title := [90, 90], publisher := [80], year := [], genre_code := 0,
         database_id := 7, guid := [] }] []).newMappings :=
  ⟨by decide, (c7_mapping_rewrite _ _ _).1 (by decide)⟩

/-- C2 counterexample: with two external entries where the first only
GUID-matches the slot and the second id-matches it, the code returns the
first entry with kind exact-by-guid even though an id-tier match exists,
so the claim that the id tier is exhausted over all entries before any
GUID match is false on the code. -/
theorem c2_counterexample :
    findExact [((7 : Int), 1)] [([103], 1)] 1
      [{ title := [], publisher := [], year := [], genre_code := 0,
         database_id := 0, guid := [103] },
       { title := [], publisher := [], year := [], genre_code := 0,
         database_id := 7, guid := [] }] =
      some ({ title := [], publisher := [], year := [], genre_code := 0,
              database_id := 0, guid := [103] }, MatchKind.exactGuid) ∧
    (0 : Int) < 7 ∧ dget [((7 : Int), 1)] (7 : Int) = some 1 := by
  refine ⟨by decide, by decide, by decide⟩

/-- C2 (amended): entries are scanned in enumeration order with the
database-id check tried before the GUID check on each single entry; the
returned match is the first entry passing either check, with kind
exact-by-id exactly when that entry's own id check passes, so the id tier
takes precedence within one entry but is not exhausted across entries. -/
theorem c2_exact_tier_order (mappings : List (Int × Nat)) (guidMappings : List (Str × Nat))
    (gameIndex : Nat) :
    ∀ entries, findExact mappings guidMappings gameIndex entries =
      (entries.find? (fun e =>
        decide (0 < e.database_id ∧ dget mappings e.database_id = some gameIndex) ||
        decide (e.guid ≠ [] ∧ dget guidMappings e.guid = some gameIndex))).map
        (fun e => (e, if 0 < e.database_id ∧ dget mappings e.database_id = some gameIndex
          then MatchKind.exactId else MatchKind.exactGuid))
  | [] => rfl
  | e :: rest => by
    by_cases h1 : 0 < e.database_id ∧ dget mappings e.database_id = some gameIndex
    · rw [findExact, if_pos h1, List.find?_cons_of_pos _ (by simp [h1])]
      simp [h1]
    · by_cases h2 : e.guid ≠ [] ∧ dget guidMappings e.guid = some gameIndex
      · rw [findExact, if_neg h1, if_pos h2, List.find?_cons_of_pos _ (by simp [h1, h2])]
        simp [h1]
      · rw [findExact, if_neg h1, if_neg h2, List.find?_cons_of_neg _ (by simp [h1, h2])]
        exact c2_exact_tier_order mappings guidMappings gameIndex rest

theorem fuzzyBest_spec (title : Str) (entries : List Entry) :
    (∀ e ∈ entries, similarity_ratio title e.title ≤ (fuzzyBest title entries).1) ∧
    0 ≤ (fuzzyBest title entries).1 ∧
    (((fuzzyBest title entries).2 = none ∧ (fuzzyBest title entries).1 = 0) ∨
     (∃ k e, entries.get? k = some e ∧ (fuzzyBest title entries).2 = some e ∧
       (fuzzyBest title entries).1 = similarity_ratio title e.title ∧
       0 < similarity_ratio title e.title ∧
       ∀ j e2, j < k → entries.get? j = some e2 →
         similarity_ratio title e2.title < similarity_ratio title e.title)) := by
  induction entries using List.reverseRecOn with
  | nil => simp [fuzzyBest]
  | append_singleton l e ih =>
    obtain ⟨ihmax, ihnn, ihbr⟩ := ih
    have hstep : fuzzyBest title (l ++ [e]) =
        (if (fuzzyBest title l).1 < similarity_ratio title e.title
         then (similarity_ratio title e.title, some e) else fuzzyBest title l) := by
      simp [fuzzyBest, List.foldl_append]
    by_cases hlt : (fuzzyBest title l).1 < similarity_ratio title e.title
    · rw [hstep, if_pos hlt]
      refine ⟨?_, le_of_lt (lt_of_le_of_lt ihnn hlt),
        Or.inr ⟨l.length, e, ?_, rfl, rfl, lt_of_le_of_lt ihnn hlt, ?_⟩⟩
      · intro x hx
        rcases List.mem_append.mp hx with hx | hx
        · exact le_of_lt (lt_of_le_of_lt (ihmax x hx) hlt)
        · simp at hx
          subst hx
          exact le_refl _
      · exact List.get?_concat_length l e
      · intro j e2 hj hget
        have hget2 : l.get? j = some e2 := by rwa [List.get?_append hj] at hget
        exact lt_of_le_of_lt (ihmax e2 (List.get?_mem hget2)) hlt
    · rw [hstep, if_neg hlt]
      push_neg at hlt
      refine ⟨?_, ihnn, ?_⟩
      · intro x hx
        rcases List.mem_append.mp hx with hx | hx
        · exact ihmax x hx
        · simp at hx
          subst hx
          exact hlt
      · rcases ihbr with ⟨hnone, hzero⟩ | ⟨k, e2, hget, hsome, heq, hpos, hfirst⟩
        · exact Or.inl ⟨hnone, hzero⟩
        · have hk : k < l.length := by
            rcases List.get?_eq_some.mp hget with ⟨hklt, _⟩
            exact hklt
          refine Or.inr ⟨k, e2, ?_, hsome, heq, hpos, ?_⟩
          · rw [List.get?_append hk]
            exact hget
          · intro j e3 hj hget3
            have hget4 : l.get? j = some e3 := by
              rwa [List.get?_append (lt_trans hj hk)] at hget3
            exact hfirst j e3 hj hget4

/-- C5: the fuzzy fallback returns no match exactly when every entry
scores strictly below 0.8 against the record title; a returned match
scores at least 0.8, is maximal among all entries, and is the first entry
in enumeration order attaining that maximum (all strictly earlier entries
score strictly less). -/
theorem c5_fuzzy_selection (title : Str) (entries : List Entry) :
    (fuzzyMatch title entries = none ↔
      ∀ e ∈ entries, similarity_ratio title e.title < mkRat 4 5) ∧
    ∀ e, fuzzyMatch title entries = some e →
      mkRat 4 5 ≤ similarity_ratio title e.title ∧
      (∀ e2 ∈ entries, similarity_ratio title e2.title ≤ similarity_ratio title e.title) ∧
      ∃ k, entries.get? k = some e ∧
        ∀ j e2, j < k → entries.get? j = some e2 →
          similarity_ratio title e2.title < similarity_ratio title e.title := by
  obtain ⟨hmax, hnn, hbr⟩ := fuzzyBest_spec title entries
  constructor
  · constructor
    · intro hnone e he
      unfold fuzzyMatch at hnone
      by_cases hth : (fuzzyBest title entries).1 < mkRat 4 5
      · exact lt_of_le_of_lt (hmax e he) hth
      · rw [if_neg hth] at hnone
        rcases hbr with ⟨_, h1⟩ | ⟨k, e2, _, hsome, _, _, _⟩
        · exfalso
          apply hth
          rw [h1]
          decide
        · rw [hsome] at hnone
          exact Option.noConfusion hnone
    · intro hall
      unfold fuzzyMatch
      by_cases hth : (fuzzyBest title entries).1 < mkRat 4 5
      · rw [if_pos hth]
      · rw [if_neg hth]
        rcases hbr with ⟨h2, _⟩ | ⟨k, e2, hget, hsome, heq, _, _⟩
        · exact h2
        · exfalso
          apply hth
          rw [heq]
          exact hall e2 (List.get?_mem hget)
  · intro e hsome2
    unfold fuzzyMatch at hsome2
    by_cases hth : (fuzzyBest title entries).1 < mkRat 4 5
    · rw [if_pos hth] at hsome2
      exact Option.noConfusion hsome2
    · rw [if_neg hth] at hsome2
      rcases hbr with ⟨hn, _⟩ | ⟨k, e2, hget, hsome, heq, hpos, hfirst⟩
      · rw [hn] at hsome2
        exact Option.noConfusion hsome2
      · rw [hsome] at hsome2
        injection hsome2 with he
        subst he
        push_neg at hth
        rw [heq] at hth hmax
        exact ⟨hth, fun e3 h3 => hmax e3 h3, ⟨k, hget, hfirst⟩⟩

/-- Witness for C5: a single entry with ratio 1 is matched, and the
threshold bound from the theorem holds at it. -/
theorem c5_fuzzy_selection_witness :
    fuzzyMatch [90, 90] [Entry.mk [90, 90] [] [] 0 0 []] =
      some (Entry.mk [90, 90] [] [] 0 0 []) ∧
    mkRat 4 5 ≤ similarity_ratio [90, 90] [90, 90] :=
  ⟨by decide, (((c5_fuzzy_selection [90, 90] [Entry.mk [90, 90] [] [] 0 0 []]).2
    (Entry.mk [90, 90] [] [] 0 0 [])) (by decide)).1⟩

theorem foldl_importStep (mp : List (Int × Nat)) (gm : List (Str × Nat)) (entries : List Entry)
    (data : List Nat) :
    ∀ (l : List Nat) (init : List Nat × Nat × List (Nat × Int × Str)),
      l.foldl (importStep mp gm entries data) init =
      (init.1 ++ (l.map (fun i => (processRecord mp gm entries (i + 1)
          (sliceList data (i * RECORD_SIZE) RECORD_SIZE)).1)).join,
       init.2.1 + (l.map (fun i => (processRecord mp gm entries (i + 1)
          (sliceList data (i * RECORD_SIZE) RECORD_SIZE)).2.1)).sum,
       init.2.2 ++ (l.map (fun i => (processRecord mp gm entries (i + 1)
          (sliceList data (i * RECORD_SIZE) RECORD_SIZE)).2.2)).join)
  | [], init => by simp
  | i :: t, init => by
    rw [List.foldl_cons, foldl_importStep mp gm entries data t]
    simp [importStep, List.append_assoc, Nat.add_assoc]

theorem import_metadata_parts (data : List Nat) (entries : List Entry) (mapFile : List Nat) :
    (import_metadata data entries mapFile).dbBytes =
      ((List.range (data.length / RECORD_SIZE)).map (fun i =>
        (processRecord (load_mapping_file mapFile).1 (load_mapping_file mapFile).2 entries
          (i + 1) (sliceList data (i * RECORD_SIZE) RECORD_SIZE)).1)).join ∧
    (import_metadata data entries mapFile).updates =
      ((List.range (data.length / RECORD_SIZE)).map (fun i =>
        (processRecord (load_mapping_file mapFile).1 (load_mapping_file mapFile).2 entries
          (i + 1) (sliceList data (i * RECORD_SIZE) RECORD_SIZE)).2.1)).sum ∧
    (import_metadata data entries mapFile).newMappings =
      ((List.range (data.length / RECORD_SIZE)).map (fun i =>
        (processRecord (load_mapping_file mapFile).1 (load_mapping_file mapFile).2 entries
          (i + 1) (sliceList data (i * RECORD_SIZE) RECORD_SIZE)).2.2)).join := by
  unfold import_metadata
  dsimp only
  rw [foldl_importStep]
  simp

theorem length_sliceList_of_le (data : List Nat) (pos len : Nat) (h : pos + len ≤ data.length) :
    (sliceList data pos len).length = len := by
  simp [sliceList]
  omega

theorem length_processRecord_fst (mp : List (Int × Nat)) (gm : List (Str × Nat))
    (entries : List Entry) (gi : Nat) (rd : List Nat) (h : rd.length = 256) :
    (processRecord mp gm entries gi rd).1.length = 256 := by
  unfold processRecord
  dsimp only
  split
  · exact h
  · split <;> simp [length_pack_game_record]

theorem sliceList_join_of_uniform {n : Nat} :
    ∀ (L : List (List Nat)), (∀ x ∈ L, x.length = n) →
      ∀ i x, L.get? i = some x → sliceList L.join (i * n) n = x
  | [], _, i, x, h => by simp at h
  | y :: T, hlen, 0, x, h => by
    simp only [List.get?_cons_zero, Option.some_inj] at h
    subst h
    have hy : y.length = n := hlen y (by simp)
    simp only [List.join_cons, sliceList, Nat.zero_mul, List.drop_zero]
    exact List.take_left' hy
  | y :: T, hlen, i + 1, x, h => by
    simp only [List.get?_cons_succ] at h
    have hy : y.length = n := hlen y (by simp)
    have hstep : sliceList (y :: T).join ((i + 1) * n) n = sliceList T.join (i * n) n := by
      simp only [List.join_cons, sliceList]
      rw [show (i + 1) * n = y.length + i * n by rw [hy]; ring, List.drop_append]
    rw [hstep]
    exact sliceList_join_of_uniform T (fun z hz => hlen z (by simp [hz])) i x h

theorem slice_import_dbBytes (data : List Nat) (entries : List Entry) (mapFile : List Nat)
    (i : Nat) (hi : i < data.length / RECORD_SIZE) :
    sliceList (import_metadata data entries mapFile).dbBytes (i * RECORD_SIZE) RECORD_SIZE =
      (processRecord (load_mapping_file mapFile).1 (load_mapping_file mapFile).2 entries
        (i + 1) (sliceList data (i * RECORD_SIZE) RECORD_SIZE)).1 := by
  rw [(import_metadata_parts data entries mapFile).1]
  apply sliceList_join_of_uniform
  · intro x hx
    rcases List.mem_map.mp hx with ⟨j, hj, hxj⟩
    have hjlt : j < data.length / RECORD_SIZE := List.mem_range.mp hj
    have hslice : (sliceList data (j * RECORD_SIZE) RECORD_SIZE).length = 256 := by
      apply length_sliceList_of_le
      have hj256 : j < data.length / 256 := hjlt
      show j * 256 + 256 ≤ data.length
      omega
    rw [← hxj]
    exact length_processRecord_fst _ _ _ _ _ hslice
  · rw [List.get?_map, List.get?_range hi]
    rfl

theorem processRecord_nm_slot (mp : List (Int × Nat)) (gm : List (Str × Nat))
    (entries : List Entry) (gi : Nat) (rd : List Nat) :
    ∀ x ∈ (processRecord mp gm entries gi rd).2.2, x.1 = gi := by
  intro x hx
  unfold processRecord at hx
  dsimp only at hx
  split at hx
  · simp at hx
  · split at hx
    · simp only at hx
      split at hx
      · simp at hx
        rw [hx]
      · simp at hx
    · simp at hx

theorem import_nm_mem (data : List Nat) (entries : List Entry) (mapFile : List Nat)
    (x : Nat × Int × Str) (hx : x ∈ (import_metadata data entries mapFile).newMappings) :
    ∃ j, j < data.length / RECORD_SIZE ∧ x.1 = j + 1 ∧
      x ∈ (processRecord (load_mapping_file mapFile).1 (load_mapping_file mapFile).2 entries
        (j + 1) (sliceList data (j * RECORD_SIZE) RECORD_SIZE)).2.2 := by
  rw [(import_metadata_parts data entries mapFile).2.2] at hx
  rcases List.mem_join.mp hx with ⟨l, hl, hxl⟩
  rcases List.mem_map.mp hl with ⟨j, hj, hlj⟩
  refine ⟨j, List.mem_range.mp hj, ?_, by rw [hlj]; exact hxl⟩
  rw [← hlj] at hxl
  exact processRecord_nm_slot _ _ _ _ _ x hxl

/-- C9: a deleted record is copied verbatim to its slot position in the
output, and no mapping entry for its slot is collected (it is never
matched or merged). -/
theorem c9_deleted_untouched (data : List Nat) (entries : List Entry) (mapFile : List Nat)
    (i : Nat) (hi : i < data.length / RECORD_SIZE)
    (hdel : (unpackGameCore (sliceList data (i * RECORD_SIZE) RECORD_SIZE)).deleted = true) :
    sliceList (import_metadata data entries mapFile).dbBytes (i * RECORD_SIZE) RECORD_SIZE =
      sliceList data (i * RECORD_SIZE) RECORD_SIZE ∧
    ∀ s id g, (s, id, g) ∈ (import_metadata data entries mapFile).newMappings → s ≠ i + 1 := by
  constructor
  · rw [slice_import_dbBytes data entries mapFile i hi]
    unfold processRecord
    dsimp only
    rw [if_pos hdel]
  · intro s id g hmem hcon
    rcases import_nm_mem data entries mapFile (s, id, g) hmem with ⟨j, hj, hslot, hmem2⟩
    have hij : j = i := by omega
    subst hij
    unfold processRecord at hmem2
    dsimp only at hmem2
    rw [if_pos hdel] at hmem2
    simp at hmem2

set_option maxRecDepth 10000 in
/-- Witness for C9: one deleted record with garbage bytes passes through
an import run byte-for-byte. -/
theorem c9_deleted_untouched_witness :
    sliceList (import_metadata (List.replicate 251 7 ++ [1] ++ List.replicate 4 9) []
        []).dbBytes 0 RECORD_SIZE =
      sliceList (List.replicate 251 7 ++ [1] ++ List.replicate 4 9) 0 RECORD_SIZE :=
  (c9_deleted_untouched (List.replicate 251 7 ++ [1] ++ List.replicate 4 9) [] [] 0
    (by decide) (by decide)).1

theorem byteAt_le_of_bytes (d : List Nat) (hb : ∀ x ∈ d, x < 256) (k : Nat) :
    byteAt d k ≤ 255 := by
  unfold byteAt
  cases hg : d.get? k with
  | none => simp
  | some v =>
    have hv := hb v (List.get?_mem hg)
    simp
    omega

theorem mem_sliceList (data : List Nat) (pos len : Nat) :
    ∀ x ∈ sliceList data pos len, x ∈ data := by
  intro x hx
  exact List.mem_of_mem_drop (List.mem_of_mem_take hx)

theorem length_pascal_string_decode_le (s : List Nat) (m : Nat) :
    (pascal_string_decode s m).length ≤ m := by
  unfold pascal_string_decode
  split
  · simp
  · simp [List.length_take]

theorem specCanonicalize_unpackGameCore (d : List Nat) :
    specCanonicalize (unpackGameCore d) = unpackGameCore d := by
  unfold specCanonicalize
  have h : ∀ (x : List Nat) (m : Nat), (pascal_string_decode x m).length ≤ m :=
    length_pascal_string_decode_le
  simp only [unpackGameCore]
  congr 1 <;> exact List.take_of_length_le (h _ _)

theorem unpackGameCore_pack_of_bytes (d : List Nat) (hb : ∀ x ∈ d, x < 256) :
    unpackGameCore (pack_game_record (unpackGameCore d)) = unpackGameCore d := by
  have h207 := byteAt_le_of_bytes d hb 207
  have h208 := byteAt_le_of_bytes d hb 208
  have h209 := byteAt_le_of_bytes d hb 209
  have h210 := byteAt_le_of_bytes d hb 210
  have h247 := byteAt_le_of_bytes d hb 247
  have h248 := byteAt_le_of_bytes d hb 248
  have h249 := byteAt_le_of_bytes d hb 249
  rw [unpackGameCore_pack _ h207 h208 h209 h210 h247 (by simp [unpackGameCore]; omega),
    specCanonicalize_unpackGameCore]

set_option maxRecDepth 10000 in
/-- C10: every non-deleted record is re-serialized: its output slot bytes
are the packing of the (possibly merged) decoding of its input bytes; an
unmatched record keeps its decoded field values exactly while its raw
bytes are canonicalized, and a concrete record with garbage in its title
padding shows the output bytes can differ from the input even with no
entries to match. -/
theorem c10_reserialize (data : List Nat) (entries : List Entry) (mapFile : List Nat)
    (i : Nat) (hi : i < data.length / RECORD_SIZE)
    (hnd : (unpackGameCore (sliceList data (i * RECORD_SIZE) RECORD_SIZE)).deleted = false) :
    (sliceList (import_metadata data entries mapFile).dbBytes (i * RECORD_SIZE) RECORD_SIZE =
      pack_game_record (match lbMatch (load_mapping_file mapFile).1 (load_mapping_file mapFile).2
          entries (i + 1)
          (unpackGameCore (sliceList data (i * RECORD_SIZE) RECORD_SIZE)).title with
        | some (e, _) =>
          mergeGame (unpackGameCore (sliceList data (i * RECORD_SIZE) RECORD_SIZE)) e
        | none => unpackGameCore (sliceList data (i * RECORD_SIZE) RECORD_SIZE))) ∧
    ((∀ b ∈ data, b < 256) →
      lbMatch (load_mapping_file mapFile).1 (load_mapping_file mapFile).2 entries (i + 1)
          (unpackGameCore (sliceList data (i * RECORD_SIZE) RECORD_SIZE)).title = none →
      unpack_game_record (sliceList (import_metadata data entries mapFile).dbBytes
          (i * RECORD_SIZE) RECORD_SIZE) =
        some (unpackGameCore (sliceList data (i * RECORD_SIZE) RECORD_SIZE))) ∧
    ((import_metadata (0 :: 99 :: List.replicate 254 0) [] []).dbBytes ≠
      0 :: 99 :: List.replicate 254 0 ∧
     unpackGameCore (import_metadata (0 :: 99 :: List.replicate 254 0) [] []).dbBytes =
      unpackGameCore (0 :: 99 :: List.replicate 254 0)) := by
  have hmain : sliceList (import_metadata data entries mapFile).dbBytes
      (i * RECORD_SIZE) RECORD_SIZE =
      pack_game_record (match lbMatch (load_mapping_file mapFile).1 (load_mapping_file mapFile).2
          entries (i + 1)
          (unpackGameCore (sliceList data (i * RECORD_SIZE) RECORD_SIZE)).title with
        | some (e, _) =>
          mergeGame (unpackGameCore (sliceList data (i * RECORD_SIZE) RECORD_SIZE)) e
        | none => unpackGameCore (sliceList data (i * RECORD_SIZE) RECORD_SIZE)) := by
    rw [slice_import_dbBytes data entries mapFile i hi]
    unfold processRecord
    dsimp only
    rw [if_neg (by simp [hnd])]
    cases hm : lbMatch (load_mapping_file mapFile).1 (load_mapping_file mapFile).2 entries
        (i + 1) (unpackGameCore (sliceList data (i * RECORD_SIZE) RECORD_SIZE)).title with
    | none => simp
    | some r =>
      cases r with
      | mk e k => simp
  refine ⟨hmain, ?_, by decide, by decide⟩
  intro hb hnone
  rw [hmain, hnone]
  rw [unpack_game_record, if_pos (by rw [length_pack_game_record]; rfl)]
  rw [unpackGameCore_pack_of_bytes _ (fun x hx => hb x (mem_sliceList _ _ _ x hx))]

set_option maxRecDepth 10000 in
/-- Witness for C10 at a concrete unmatched record: its output slot is
exactly the re-packing of its decoding. -/
theorem c10_reserialize_witness :
    sliceList (import_metadata (0 :: 99 :: List.replicate 254 0) [] []).dbBytes
      (0 * RECORD_SIZE) RECORD_SIZE =
      pack_game_record (match lbMatch (load_mapping_file []).1 (load_mapping_file []).2
          [] (0 + 1)
          (unpackGameCore (sliceList (0 :: 99 :: List.replicate 254 0)
            (0 * RECORD_SIZE) RECORD_SIZE)).title with
        | some (e, _) =>
          mergeGame (unpackGameCore (sliceList (0 :: 99 :: List.replicate 254 0)
            (0 * RECORD_SIZE) RECORD_SIZE)) e
        | none => unpackGameCore (sliceList (0 :: 99 :: List.replicate 254 0)
            (0 * RECORD_SIZE) RECORD_SIZE)) :=
  (c10_reserialize (0 :: 99 :: List.replicate 254 0) [] [] 0 (by decide) (by decide)).1

theorem findExact_nil :
    ∀ (entries : List Entry) (gameIndex : Nat), findExact [] [] gameIndex entries = none
  | [], _ => rfl
  | e :: rest, gameIndex => by
    rw [findExact, if_neg (by simp [dget]), if_neg (by simp [dget]),
      findExact_nil rest gameIndex]

theorem mergeGame_idem (g : Game) (e : Entry) :
    mergeGame (mergeGame g e) e = mergeGame g e := by
  have mpub : ∀ g2 : Game, (mergeGame g2 e).publisher =
      if g2.publisher = [] ∨ (pyStrip g2.publisher).length = 0 then e.publisher
      else g2.publisher := fun _ => rfl
  have myear : ∀ g2 : Game, (mergeGame g2 e).year =
      if g2.year = [] ∨ (pyStrip g2.year).length = 0 then e.year else g2.year := fun _ => rfl
  have mgen : ∀ g2 : Game, (mergeGame g2 e).genre_code =
      if g2.genre_code = 0 then e.genre_code else g2.genre_code := fun _ => rfl
  apply (mergeGame_eq_iff (mergeGame g e) e).mp
  refine ⟨?_, ?_, ?_⟩
  · by_cases hp2 : (mergeGame g e).publisher = [] ∨ (pyStrip (mergeGame g e).publisher).length = 0
    · rw [mpub (mergeGame g e), if_pos hp2]
      by_cases hp : g.publisher = [] ∨ (pyStrip g.publisher).length = 0
      · rw [mpub g, if_pos hp]
      · exfalso
        rw [mpub g, if_neg hp] at hp2
        exact hp hp2
    · rw [mpub (mergeGame g e), if_neg hp2]
  · by_cases hy2 : (mergeGame g e).year = [] ∨ (pyStrip (mergeGame g e).year).length = 0
    · rw [myear (mergeGame g e), if_pos hy2]
      by_cases hy : g.year = [] ∨ (pyStrip g.year).length = 0
      · rw [myear g, if_pos hy]
      · exfalso
        rw [myear g, if_neg hy] at hy2
        exact hy hy2
    · rw [myear (mergeGame g e), if_neg hy2]
  · by_cases hg2 : (mergeGame g e).genre_code = 0
    · rw [mgen (mergeGame g e), if_pos hg2]
      by_cases hg : g.genre_code = 0
      · rw [mgen g, if_pos hg]
      · exfalso
        rw [mgen g, if_neg hg] at hg2
        exact hg hg2
    · rw [mgen (mergeGame g e), if_neg hg2]

/-- All field bounds that the 256-byte layout guarantees for a decoded
record. -/
def GameB (g : Game) : Prop :=
  g.title.length ≤ 50 ∧ g.path.length ≤ 80 ∧ g.command.length ≤ 13 ∧ g.args.length ≤ 60 ∧
  g.publisher.length ≤ 30 ∧ g.year.length ≤ 4 ∧ g.sound_flags ≤ 255 ∧ g.sound_fm ≤ 255 ∧
  g.sound_midi ≤ 255 ∧ g.graphics_flags ≤ 255 ∧ g.genre_code ≤ 255 ∧ g.slowdown_su ≤ 65535

/-- External entries as the XML parser actually produces them: text
within the slot widths and a database id in the signed 32-bit range. -/
def EntryWF (e : Entry) : Prop :=
  e.publisher.length ≤ 30 ∧ e.year.length ≤ 4 ∧ e.guid.length ≤ 36 ∧ e.genre_code ≤ 255 ∧
  -2147483648 ≤ e.database_id ∧ e.database_id < 2147483648

instance (e : Entry) : Decidable (EntryWF e) := by
  unfold EntryWF; infer_instance

theorem gameB_unpackGameCore (d : List Nat) (hb : ∀ x ∈ d, x < 256) :
    GameB (unpackGameCore d) := by
  refine ⟨length_pascal_string_decode_le _ _, length_pascal_string_decode_le _ _,
    length_pascal_string_decode_le _ _, length_pascal_string_decode_le _ _,
    length_pascal_string_decode_le _ _, length_pascal_string_decode_le _ _,
    byteAt_le_of_bytes d hb 207, byteAt_le_of_bytes d hb 208, byteAt_le_of_bytes d hb 209,
    byteAt_le_of_bytes d hb 210, byteAt_le_of_bytes d hb 247, ?_⟩
  have h1 := byteAt_le_of_bytes d hb 248
  have h2 := byteAt_le_of_bytes d hb 249
  show byteAt d 248 + 256 * byteAt d 249 ≤ 65535
  omega

theorem gameB_mergeGame (g : Game) (e : Entry) (hg : GameB g) (he : EntryWF e) :
    GameB (mergeGame g e) := by
  obtain ⟨t1, t2, t3, t4, t5, t6, t7, t8, t9, t10, t11, t12⟩ := hg
  obtain ⟨w1, w2, _, w4, _, _⟩ := he
  refine ⟨t1, t2, t3, t4, ?_, ?_, t7, t8, t9, t10, ?_, t12⟩
  · simp only [mergeGame]
    split <;> assumption
  · simp only [mergeGame]
    split <;> assumption
  · simp only [mergeGame]
    split <;> assumption

theorem unpackGameCore_pack_of_gameB (g : Game) (hg : GameB g) :
    unpackGameCore (pack_game_record g) = g := by
  obtain ⟨t1, t2, t3, t4, t5, t6, t7, t8, t9, t10, t11, t12⟩ := hg
  rw [unpackGameCore_pack g t7 t8 t9 t10 t11 t12]
  unfold specCanonicalize
  cases g
  simp_all [Game.mk.injEq, List.take_of_length_le]

theorem length_join_uniform {n : Nat} :
    ∀ (L : List (List Nat)), (∀ x ∈ L, x.length = n) → L.join.length = n * L.length
  | [], _ => by simp
  | y :: T, h => by
    have hy : y.length = n := h y (by simp)
    simp only [List.join_cons, List.length_append, List.length_cons,
      length_join_uniform T (fun z hz => h z (by simp [hz])), hy]
    ring

theorem length_pack_mapping_record (s : Nat) (id : Int) (gu : Str) :
    (pack_mapping_record s id gu).length = 48 := by
  have h : (gu.take 36).length ≤ 36 := by
    simp [List.length_take]
  simp [pack_mapping_record, word16Bytes, int32Bytes]

theorem unpackMappingCore_pack (s : Nat) (id : Int) (gu : Str)
    (hs : s ≤ 65535) (hid1 : -2147483648 ≤ id) (hid2 : id < 2147483648)
    (hgu : gu.length ≤ 36) :
    unpackMappingCore (pack_mapping_record s id gu) = (s, id, gu) := by
  have hgu36 : gu.take 36 = gu := List.take_of_length_le hgu
  have hcons : pack_mapping_record s id gu =
      s % 256 :: s / 256 % 256 ::
      (id % (2 ^ 32 : Int)).toNat % 256 ::
      (id % (2 ^ 32 : Int)).toNat / 256 % 256 ::
      (id % (2 ^ 32 : Int)).toNat / 65536 % 256 ::
      (id % (2 ^ 32 : Int)).toNat / 16777216 % 256 ::
      (gu.take 36).length ::
      (gu.take 36 ++ List.replicate (41 - (gu.take 36).length) 0) := rfl
  rw [hgu36] at hcons
  have hult : (id % (2 ^ 32 : Int)).toNat < 4294967296 := by
    omega
  have huval : (if (id % (2 ^ 32 : Int)).toNat < 2147483648
      then (((id % (2 ^ 32 : Int)).toNat : Nat) : Int)
      else (((id % (2 ^ 32 : Int)).toNat : Nat) : Int) - 4294967296) = id := by
    omega
  unfold unpackMappingCore
  rw [hcons]
  simp only [byteAt, List.get?, Option.getD_some, sliceList, List.drop_succ_cons,
    List.drop_zero]
  refine Prod.ext ?_ (Prod.ext ?_ ?_)
  · show s % 256 + 256 * (s / 256 % 256) = s
    omega
  · show (if (id % (2 ^ 32 : Int)).toNat % 256 + 256 * ((id % (2 ^ 32 : Int)).toNat / 256 % 256)
        + 65536 * ((id % (2 ^ 32 : Int)).toNat / 65536 % 256)
        + 16777216 * ((id % (2 ^ 32 : Int)).toNat / 16777216 % 256) < 2147483648
      then (((id % (2 ^ 32 : Int)).toNat % 256 + 256 * ((id % (2 ^ 32 : Int)).toNat / 256 % 256)
        + 65536 * ((id % (2 ^ 32 : Int)).toNat / 65536 % 256)
        + 16777216 * ((id % (2 ^ 32 : Int)).toNat / 16777216 % 256) : Nat) : Int)
      else (((id % (2 ^ 32 : Int)).toNat % 256 + 256 * ((id % (2 ^ 32 : Int)).toNat / 256 % 256)
        + 65536 * ((id % (2 ^ 32 : Int)).toNat / 65536 % 256)
        + 16777216 * ((id % (2 ^ 32 : Int)).toNat / 16777216 % 256) : Nat) : Int)
        - 4294967296) = id
    have hsum : (id % (2 ^ 32 : Int)).toNat % 256
        + 256 * ((id % (2 ^ 32 : Int)).toNat / 256 % 256)
        + 65536 * ((id % (2 ^ 32 : Int)).toNat / 65536 % 256)
        + 16777216 * ((id % (2 ^ 32 : Int)).toNat / 16777216 % 256)
        = (id % (2 ^ 32 : Int)).toNat := by
      omega
    rw [hsum]
    exact huval
  · show (gu ++ List.replicate (41 - gu.length) 0).take (min gu.length 36) = gu
    rw [min_eq_left hgu, List.take_left' rfl]

theorem dget_mem {α β : Type} [BEq α] [LawfulBEq α] (m : List (α × β)) (k : α) (v : β)
    (h : dget m k = some v) : (k, v) ∈ m := by
  unfold dget at h
  cases hf : m.find? (fun p => p.1 == k) with
  | none =>
    rw [hf] at h
    simp at h
  | some p =>
    rw [hf] at h
    simp at h
    have hp := List.find?_some hf
    have hmem := List.mem_of_find?_eq_some hf
    simp at hp
    have hpkv : p = (k, v) := by
      cases p with
      | mk a b => simp_all
    rw [← hpkv]
    exact hmem

/-- The `j`-th mapping record decoded from a mapping-file byte string. -/
def mrec (data : List Nat) (j : Nat) : Nat × Int × Str :=
  unpackMappingCore (sliceList data (j * MAP_RECORD_SIZE) MAP_RECORD_SIZE)

theorem load_fold_mem (data : List Nat) :
    ∀ (k : Nat) (st : List (Int × Nat) × List (Str × Nat)),
      (∀ x ∈ ((List.range k).foldl (loadStep data) st).1,
        x ∈ st.1 ∨ ∃ j, j < k ∧ 0 < (mrec data j).1 ∧ 0 < (mrec data j).2.1 ∧
          x = ((mrec data j).2.1, (mrec data j).1)) ∧
      (∀ x ∈ ((List.range k).foldl (loadStep data) st).2,
        x ∈ st.2 ∨ ∃ j, j < k ∧ 0 < (mrec data j).1 ∧ (mrec data j).2.2 ≠ [] ∧
          x = ((mrec data j).2.2, (mrec data j).1))
  | 0, st => by simp
  | k + 1, st => by
    rw [List.range_succ, List.foldl_append, List.foldl_cons, List.foldl_nil]
    have hstep : loadStep data ((List.range k).foldl (loadStep data) st) k =
        (if 0 < (mrec data k).1 then
          (if 0 < (mrec data k).2.1 then
            ((mrec data k).2.1, (mrec data k).1) :: ((List.range k).foldl (loadStep data) st).1
           else ((List.range k).foldl (loadStep data) st).1,
           if (mrec data k).2.2 ≠ [] then
            ((mrec data k).2.2, (mrec data k).1) :: ((List.range k).foldl (loadStep data) st).2
           else ((List.range k).foldl (loadStep data) st).2)
         else (List.range k).foldl (loadStep data) st) := rfl
    rw [hstep]
    obtain ⟨ih1, ih2⟩ := load_fold_mem data k st
    constructor
    · intro x hx
      by_cases h1 : 0 < (mrec data k).1
      · rw [if_pos h1] at hx
        by_cases h2 : 0 < (mrec data k).2.1
        · rw [show ((if 0 < (mrec data k).2.1 then
              ((mrec data k).2.1, (mrec data k).1) :: ((List.range k).foldl (loadStep data) st).1
             else ((List.range k).foldl (loadStep data) st).1), (if (mrec data k).2.2 ≠ [] then
              ((mrec data k).2.2, (mrec data k).1) :: ((List.range k).foldl (loadStep data) st).2
             else ((List.range k).foldl (loadStep data) st).2)).1 =
             (if 0 < (mrec data k).2.1 then
              ((mrec data k).2.1, (mrec data k).1) :: ((List.range k).foldl (loadStep data) st).1
             else ((List.range k).foldl (loadStep data) st).1) from rfl, if_pos h2] at hx
          rcases List.mem_cons.mp hx with hx | hx
          · exact Or.inr ⟨k, by omega, h1, h2, hx⟩
          · rcases ih1 x hx with h | ⟨j, hj, a, b, c⟩
            · exact Or.inl h
            · exact Or.inr ⟨j, by omega, a, b, c⟩
        · rw [show ((if 0 < (mrec data k).2.1 then
              ((mrec data k).2.1, (mrec data k).1) :: ((List.range k).foldl (loadStep data) st).1
             else ((List.range k).foldl (loadStep data) st).1), (if (mrec data k).2.2 ≠ [] then
              ((mrec data k).2.2, (mrec data k).1) :: ((List.range k).foldl (loadStep data) st).2
             else ((List.range k).foldl (loadStep data) st).2)).1 =
             (if 0 < (mrec data k).2.1 then
              ((mrec data k).2.1, (mrec data k).1) :: ((List.range k).foldl (loadStep data) st).1
             else ((List.range k).foldl (loadStep data) st).1) from rfl, if_neg h2] at hx
          rcases ih1 x hx with h | ⟨j, hj, a, b, c⟩
          · exact Or.inl h
          · exact Or.inr ⟨j, by omega, a, b, c⟩
      · rw [if_neg h1] at hx
        rcases ih1 x hx with h | ⟨j, hj, a, b, c⟩
        · exact Or.inl h
        · exact Or.inr ⟨j, by omega, a, b, c⟩
    · intro x hx
      by_cases h1 : 0 < (mrec data k).1
      · rw [if_pos h1] at hx
        by_cases h2 : (mrec data k).2.2 ≠ []
        · rw [show ((if 0 < (mrec data k).2.1 then
              ((mrec data k).2.1, (mrec data k).1) :: ((List.range k).foldl (loadStep data) st).1
             else ((List.range k).foldl (loadStep data) st).1), (if (mrec data k).2.2 ≠ [] then
              ((mrec data k).2.2, (mrec data k).1) :: ((List.range k).foldl (loadStep data) st).2
             else ((List.range k).foldl (loadStep data) st).2)).2 =
             (if (mrec data k).2.2 ≠ [] then
              ((mrec data k).2.2, (mrec data k).1) :: ((List.range k).foldl (loadStep data) st).2
             else ((List.range k).foldl (loadStep data) st).2) from rfl, if_pos h2] at hx
          rcases List.mem_cons.mp hx with hx | hx
          · exact Or.inr ⟨k, by omega, h1, h2, hx⟩
          · rcases ih2 x hx with h | ⟨j, hj, a, b, c⟩
            · exact Or.inl h
            · exact Or.inr ⟨j, by omega, a, b, c⟩
        · rw [show ((if 0 < (mrec data k).2.1 then
              ((mrec data k).2.1, (mrec data k).1) :: ((List.range k).foldl (loadStep data) st).1
             else ((List.range k).foldl (loadStep data) st).1), (if (mrec data k).2.2 ≠ [] then
              ((mrec data k).2.2, (mrec data k).1) :: ((List.range k).foldl (loadStep data) st).2
             else ((List.range k).foldl (loadStep data) st).2)).2 =
             (if (mrec data k).2.2 ≠ [] then
              ((mrec data k).2.2, (mrec data k).1) :: ((List.range k).foldl (loadStep data) st).2
             else ((List.range k).foldl (loadStep data) st).2) from rfl, if_neg h2] at hx
          rcases ih2 x hx with h | ⟨j, hj, a, b, c⟩
          · exact Or.inl h
          · exact Or.inr ⟨j, by omega, a, b, c⟩
      · rw [if_neg h1] at hx
        rcases ih2 x hx with h | ⟨j, hj, a, b, c⟩
        · exact Or.inl h
        · exact Or.inr ⟨j, by omega, a, b, c⟩

theorem load_mapping_file_mem (D : List Nat) :
    (∀ x ∈ (load_mapping_file D).1, ∃ j, j < D.length / MAP_RECORD_SIZE ∧
      0 < (mrec D j).1 ∧ 0 < (mrec D j).2.1 ∧ x = ((mrec D j).2.1, (mrec D j).1)) ∧
    (∀ x ∈ (load_mapping_file D).2, ∃ j, j < D.length / MAP_RECORD_SIZE ∧
      0 < (mrec D j).1 ∧ (mrec D j).2.2 ≠ [] ∧ x = ((mrec D j).2.2, (mrec D j).1)) := by
  obtain ⟨h1, h2⟩ := load_fold_mem D (D.length / MAP_RECORD_SIZE) ([], [])
  constructor
  · intro x hx
    rcases h1 x hx with h | h
    · simp at h
    · exact h
  · intro x hx
    rcases h2 x hx with h | h
    · simp at h
    · exact h

theorem processRecord_deleted (mp : List (Int × Nat)) (gm : List (Str × Nat))
    (entries : List Entry) (gi : Nat) (rd : List Nat)
    (h : (unpackGameCore rd).deleted = true) :
    processRecord mp gm entries gi rd = (rd, 0, []) := by
  unfold processRecord
  dsimp only
  rw [if_pos h]

theorem processRecord_match_none (mp : List (Int × Nat)) (gm : List (Str × Nat))
    (entries : List Entry) (gi : Nat) (rd : List Nat)
    (hd : (unpackGameCore rd).deleted = false)
    (hm : lbMatch mp gm entries gi (unpackGameCore rd).title = none) :
    processRecord mp gm entries gi rd = (pack_game_record (unpackGameCore rd), 0, []) := by
  unfold processRecord
  dsimp only
  rw [if_neg (by simp [hd]), hm]

theorem processRecord_match_some (mp : List (Int × Nat)) (gm : List (Str × Nat))
    (entries : List Entry) (gi : Nat) (rd : List Nat) (e : Entry) (k : MatchKind)
    (hd : (unpackGameCore rd).deleted = false)
    (hm : lbMatch mp gm entries gi (unpackGameCore rd).title = some (e, k)) :
    processRecord mp gm entries gi rd =
      (pack_game_record (mergeGame (unpackGameCore rd) e),
       if (mergeGame (unpackGameCore rd) e).publisher ≠ (unpackGameCore rd).publisher ∨
          (mergeGame (unpackGameCore rd) e).year ≠ (unpackGameCore rd).year ∨
          (mergeGame (unpackGameCore rd) e).genre_code ≠ (unpackGameCore rd).genre_code
       then 1 else 0,
       if 0 < e.database_id ∨ e.guid ≠ [] then [(gi, e.database_id, e.guid)] else []) := by
  unfold processRecord
  dsimp only
  rw [if_neg (by simp [hd]), hm]

theorem findExact_some (m : List (Int × Nat)) (gm : List (Str × Nat)) (gi : Nat) :
    ∀ (entries : List Entry) (e : Entry) (k : MatchKind),
      findExact m gm gi entries = some (e, k) →
      e ∈ entries ∧ ((0 < e.database_id ∧ dget m e.database_id = some gi) ∨
        (e.guid ≠ [] ∧ dget gm e.guid = some gi))
  | [], e, k, h => by simp [findExact] at h
  | x :: rest, e, k, h => by
    rw [findExact] at h
    by_cases h1 : 0 < x.database_id ∧ dget m x.database_id = some gi
    · rw [if_pos h1] at h
      simp at h
      obtain ⟨he, _⟩ := h
      subst he
      exact ⟨List.mem_cons_self _ _, Or.inl h1⟩
    · rw [if_neg h1] at h
      by_cases h2 : x.guid ≠ [] ∧ dget gm x.guid = some gi
      · rw [if_pos h2] at h
        simp at h
        obtain ⟨he, _⟩ := h
        subst he
        exact ⟨List.mem_cons_self _ _, Or.inr h2⟩
      · rw [if_neg h2] at h
        have ih := findExact_some m gm gi rest e k h
        exact ⟨List.mem_cons_of_mem _ ih.1, ih.2⟩

theorem fuzzyMatch_mem (t : Str) (entries : List Entry) (e : Entry)
    (h : fuzzyMatch t entries = some e) : e ∈ entries := by
  obtain ⟨_, _, hbr⟩ := fuzzyBest_spec t entries
  unfold fuzzyMatch at h
  by_cases hth : (fuzzyBest t entries).1 < mkRat 4 5
  · rw [if_pos hth] at h
    exact Option.noConfusion h
  · rw [if_neg hth] at h
    rcases hbr with ⟨hn, _⟩ | ⟨k, e2, hget, hsome, _, _, _⟩
    · rw [hn] at h
      exact Option.noConfusion h
    · rw [hsome] at h
      injection h with he
      subst he
      exact List.get?_mem hget

theorem lbMatch_nil (entries : List Entry) (gi : Nat) (t : Str) :
    lbMatch [] [] entries gi t = (fuzzyMatch t entries).map (fun e => (e, MatchKind.fuzzy)) := by
  unfold lbMatch
  rw [findExact_nil]

theorem import_nm_char_run1 (data : List Nat) (entries : List Entry)
    (x : Nat × Int × Str) (hx : x ∈ (import_metadata data entries []).newMappings) :
    ∃ j, j < data.length / RECORD_SIZE ∧
      ∃ e, fuzzyMatch (unpackGameCore (sliceList data (j * RECORD_SIZE) RECORD_SIZE)).title
          entries = some e ∧
        (unpackGameCore (sliceList data (j * RECORD_SIZE) RECORD_SIZE)).deleted = false ∧
        (0 < e.database_id ∨ e.guid ≠ []) ∧ x = (j + 1, e.database_id, e.guid) := by
  rcases import_nm_mem data entries [] x hx with ⟨j, hj, _, hmem⟩
  have hload : load_mapping_file ([] : List Nat) = ([], []) := rfl
  rw [hload] at hmem
  refine ⟨j, hj, ?_⟩
  by_cases hd : (unpackGameCore (sliceList data (j * RECORD_SIZE) RECORD_SIZE)).deleted = true
  · rw [processRecord_deleted _ _ _ _ _ hd] at hmem
    simp at hmem
  · have hd2 : (unpackGameCore (sliceList data (j * RECORD_SIZE) RECORD_SIZE)).deleted = false :=
      Bool.eq_false_iff.mpr hd
    cases hm : lbMatch [] [] entries (j + 1)
        (unpackGameCore (sliceList data (j * RECORD_SIZE) RECORD_SIZE)).title with
    | none =>
      rw [processRecord_match_none _ _ _ _ _ hd2 hm] at hmem
      simp at hmem
    | some r =>
      obtain ⟨e, k⟩ := r
      rw [processRecord_match_some _ _ _ _ _ e k hd2 hm] at hmem
      rw [lbMatch_nil] at hm
      cases hfz : fuzzyMatch (unpackGameCore
          (sliceList data (j * RECORD_SIZE) RECORD_SIZE)).title entries with
      | none =>
        rw [hfz] at hm
        simp at hm
      | some e2 =>
        rw [hfz] at hm
        simp at hm
        obtain ⟨he, _⟩ := hm
        subst he
        by_cases hcond : 0 < e2.database_id ∨ e2.guid ≠ []
        · rw [show (if 0 < e2.database_id ∨ e2.guid ≠ []
              then [(j + 1, e2.database_id, e2.guid)] else []) =
              [(j + 1, e2.database_id, e2.guid)] from if_pos hcond] at hmem
          simp at hmem
          exact ⟨e2, rfl, hd2, hcond, hmem⟩
        · rw [show (if 0 < e2.database_id ∨ e2.guid ≠ []
              then [(j + 1, e2.database_id, e2.guid)] else []) = [] from if_neg hcond] at hmem
          simp at hmem

theorem import_mapFileAfter (data : List Nat) (entries : List Entry) (mapFile : List Nat) :
    (import_metadata data entries mapFile).mapFileAfter =
      if (import_metadata data entries mapFile).newMappings = [] then mapFile
      else save_mapping_file (import_metadata data entries mapFile).newMappings := rfl

theorem run2_exact_entry (data : List Nat) (entries : List Entry)
    (hcnt : data.length / RECORD_SIZE ≤ 65535)
    (hwf : ∀ e ∈ entries, EntryWF e)
    (hids : ∀ i j ei ej, entries.get? i = some ei → entries.get? j = some ej →
      0 < ei.database_id → ei.database_id = ej.database_id → i = j)
    (hguids : ∀ i j ei ej, entries.get? i = some ei → entries.get? j = some ej →
      ei.guid ≠ [] → ei.guid = ej.guid → i = j)
    (i : Nat) (e2 : Entry) (k2 : MatchKind)
    (hfe : findExact
      (load_mapping_file ((import_metadata data entries []).mapFileAfter)).1
      (load_mapping_file ((import_metadata data entries []).mapFileAfter)).2
      (i + 1) entries = some (e2, k2)) :
    fuzzyMatch (unpackGameCore (sliceList data (i * RECORD_SIZE) RECORD_SIZE)).title entries =
      some e2 := by
  obtain ⟨hmem2, hcase⟩ := findExact_some _ _ _ entries e2 k2 hfe
  by_cases hnm : (import_metadata data entries []).newMappings = []
  · exfalso
    have hafter : (import_metadata data entries []).mapFileAfter = [] := by
      rw [import_mapFileAfter, if_pos hnm]
    rw [hafter] at hcase
    rcases hcase with ⟨_, hdg⟩ | ⟨_, hdg⟩ <;>
      simp [show load_mapping_file ([] : List Nat) = ([], []) from rfl, dget] at hdg
  · set nm1 := (import_metadata data entries []).newMappings with hnm1def
    have hafter : (import_metadata data entries []).mapFileAfter = save_mapping_file nm1 := by
      rw [import_mapFileAfter, if_neg hnm]
    have hunif : ∀ x ∈ nm1.map (fun m => pack_mapping_record m.1 m.2.1 m.2.2),
        x.length = MAP_RECORD_SIZE := by
      intro x hx
      rcases List.mem_map.mp hx with ⟨t, _, hxt⟩
      rw [← hxt]
      exact length_pack_mapping_record _ _ _
    have hDlen : (save_mapping_file nm1).length = 48 * nm1.length := by
      unfold save_mapping_file
      rw [length_join_uniform _ hunif, List.length_map]
      rfl
    have hDcnt : (save_mapping_file nm1).length / MAP_RECORD_SIZE = nm1.length := by
      rw [hDlen]
      show 48 * nm1.length / 48 = nm1.length
      omega
    have hmrec : ∀ jm t, nm1.get? jm = some t → mrec (save_mapping_file nm1) jm = t := by
      intro jm t hget
      rcases import_nm_char_run1 data entries t (List.get?_mem hget)
        with ⟨j3, hj3, e3, hfz3, _, _, ht3⟩
      obtain ⟨w1, w2, w3, w4, w5, w6⟩ := hwf e3 (fuzzyMatch_mem _ _ _ hfz3)
      have hslice : sliceList (save_mapping_file nm1) (jm * MAP_RECORD_SIZE) MAP_RECORD_SIZE =
          pack_mapping_record t.1 t.2.1 t.2.2 := by
        apply sliceList_join_of_uniform (nm1.map (fun m => pack_mapping_record m.1 m.2.1 m.2.2))
          hunif jm
        rw [List.get?_map, hget]
        rfl
      unfold mrec
      rw [hslice]
      have hb1 : t.1 ≤ 65535 := by
        rw [ht3]
        show j3 + 1 ≤ 65535
        omega
      have hb2 : -2147483648 ≤ t.2.1 := by
        rw [ht3]
        exact w5
      have hb3 : t.2.1 < 2147483648 := by
        rw [ht3]
        exact w6
      have hb4 : t.2.2.length ≤ 36 := by
        rw [ht3]
        exact w3
      rw [unpackMappingCore_pack t.1 t.2.1 t.2.2 hb1 hb2 hb3 hb4]
    rcases hcase with ⟨hpos, hdg⟩ | ⟨hne, hdg⟩
    · rw [hafter] at hdg
      have hmm := dget_mem _ _ _ hdg
      rcases (load_mapping_file_mem _).1 _ hmm with ⟨jm, hjm, hspos, hidpos, heq⟩
      rw [hDcnt] at hjm
      cases hget : nm1.get? jm with
      | none =>
        exfalso
        rw [List.get?_eq_none] at hget
        omega
      | some t =>
        have hmr := hmrec jm t hget
        rw [hmr] at heq
        rcases import_nm_char_run1 data entries t (List.get?_mem hget)
          with ⟨j3, hj3, e3, hfz3, hdel3, hc3, ht3⟩
        have h1 : e2.database_id = t.2.1 := congrArg Prod.fst heq
        have h2 : (i + 1 : Nat) = t.1 := congrArg (fun p => p.2) heq
        rw [ht3] at h1 h2
        simp at h1 h2
        have hij : i = j3 := by omega
        subst hij
        rcases List.mem_iff_get?.mp hmem2 with ⟨i2, hi2⟩
        rcases List.mem_iff_get?.mp (fuzzyMatch_mem _ _ _ hfz3) with ⟨i3, hi3⟩
        have hii := hids i2 i3 e2 e3 hi2 hi3 hpos h1
        rw [hii] at hi2
        rw [hi2] at hi3
        have he23 : e2 = e3 := Option.some_inj.mp hi3
        rw [he23]
        exact hfz3
    · rw [hafter] at hdg
      have hmm := dget_mem _ _ _ hdg
      rcases (load_mapping_file_mem _).2 _ hmm with ⟨jm, hjm, hspos, hgne, heq⟩
      rw [hDcnt] at hjm
      cases hget : nm1.get? jm with
      | none =>
        exfalso
        rw [List.get?_eq_none] at hget
        omega
      | some t =>
        have hmr := hmrec jm t hget
        rw [hmr] at heq
        rcases import_nm_char_run1 data entries t (List.get?_mem hget)
          with ⟨j3, hj3, e3, hfz3, hdel3, hc3, ht3⟩
        have h1 : e2.guid = t.2.2 := congrArg Prod.fst heq
        have h2 : (i + 1 : Nat) = t.1 := congrArg (fun p => p.2) heq
        rw [ht3] at h1 h2
        simp at h1 h2
        have hij : i = j3 := by omega
        subst hij
        rcases List.mem_iff_get?.mp hmem2 with ⟨i2, hi2⟩
        rcases List.mem_iff_get?.mp (fuzzyMatch_mem _ _ _ hfz3) with ⟨i3, hi3⟩
        have hii := hguids i2 i3 e2 e3 hi2 hi3 hne h1
        rw [hii] at hi2
        rw [hi2] at hi3
        have he23 : e2 = e3 := Option.some_inj.mp hi3
        rw [he23]
        exact hfz3

theorem c4_piece (data : List Nat) (entries : List Entry)
    (hbytes : ∀ b ∈ data, b < 256)
    (hcnt : data.length / RECORD_SIZE ≤ 65535)
    (hwf : ∀ e ∈ entries, EntryWF e)
    (hids : ∀ i j ei ej, entries.get? i = some ei → entries.get? j = some ej →
      0 < ei.database_id → ei.database_id = ej.database_id → i = j)
    (hguids : ∀ i j ei ej, entries.get? i = some ei → entries.get? j = some ej →
      ei.guid ≠ [] → ei.guid = ej.guid → i = j)
    (i : Nat) :
    processRecord (load_mapping_file ((import_metadata data entries []).mapFileAfter)).1
        (load_mapping_file ((import_metadata data entries []).mapFileAfter)).2 entries (i + 1)
        (processRecord [] [] entries (i + 1)
          (sliceList data (i * RECORD_SIZE) RECORD_SIZE)).1 =
      ((processRecord [] [] entries (i + 1)
          (sliceList data (i * RECORD_SIZE) RECORD_SIZE)).1, 0,
       (processRecord [] [] entries (i + 1)
          (sliceList data (i * RECORD_SIZE) RECORD_SIZE)).2.2) := by
  have hsb : ∀ b ∈ sliceList data (i * RECORD_SIZE) RECORD_SIZE, b < 256 :=
    fun b hb => hbytes b (mem_sliceList _ _ _ b hb)
  have hgB : GameB (unpackGameCore (sliceList data (i * RECORD_SIZE) RECORD_SIZE)) :=
    gameB_unpackGameCore _ hsb
  by_cases hd : (unpackGameCore (sliceList data (i * RECORD_SIZE) RECORD_SIZE)).deleted = true
  · rw [processRecord_deleted [] [] entries (i + 1) _ hd]
    show processRecord (load_mapping_file ((import_metadata data entries []).mapFileAfter)).1
        (load_mapping_file ((import_metadata data entries []).mapFileAfter)).2 entries (i + 1)
        (sliceList data (i * RECORD_SIZE) RECORD_SIZE) =
      (sliceList data (i * RECORD_SIZE) RECORD_SIZE, 0, [])
    exact processRecord_deleted _ _ entries (i + 1) _ hd
  · have hd2 : (unpackGameCore (sliceList data (i * RECORD_SIZE) RECORD_SIZE)).deleted = false :=
      Bool.eq_false_iff.mpr hd
    cases hfz : fuzzyMatch
        (unpackGameCore (sliceList data (i * RECORD_SIZE) RECORD_SIZE)).title entries with
    | none =>
      have hm1 : lbMatch [] [] entries (i + 1)
          (unpackGameCore (sliceList data (i * RECORD_SIZE) RECORD_SIZE)).title = none := by
        rw [lbMatch_nil, hfz]
        rfl
      rw [processRecord_match_none [] [] entries (i + 1) _ hd2 hm1]
      have hg2 : unpackGameCore (pack_game_record
          (unpackGameCore (sliceList data (i * RECORD_SIZE) RECORD_SIZE))) =
          unpackGameCore (sliceList data (i * RECORD_SIZE) RECORD_SIZE) :=
        unpackGameCore_pack_of_gameB _ hgB
      have hfe2 : findExact
          (load_mapping_file ((import_metadata data entries []).mapFileAfter)).1
          (load_mapping_file ((import_metadata data entries []).mapFileAfter)).2
          (i + 1) entries = none := by
        cases hfe : findExact
            (load_mapping_file ((import_metadata data entries []).mapFileAfter)).1
            (load_mapping_file ((import_metadata data entries []).mapFileAfter)).2
            (i + 1) entries with
        | none => rfl
        | some r =>
          exfalso
          obtain ⟨e2, k2⟩ := r
          have hq := run2_exact_entry data entries hcnt hwf hids hguids i e2 k2 hfe
          rw [hfz] at hq
          exact Option.noConfusion hq
      have hm2 : lbMatch
          (load_mapping_file ((import_metadata data entries []).mapFileAfter)).1
          (load_mapping_file ((import_metadata data entries []).mapFileAfter)).2 entries (i + 1)
          (unpackGameCore (pack_game_record
            (unpackGameCore (sliceList data (i * RECORD_SIZE) RECORD_SIZE)))).title = none := by
        unfold lbMatch
        rw [hfe2, hg2, hfz]
        rfl
      show processRecord (load_mapping_file ((import_metadata data entries []).mapFileAfter)).1
          (load_mapping_file ((import_metadata data entries []).mapFileAfter)).2 entries (i + 1)
          (pack_game_record (unpackGameCore (sliceList data (i * RECORD_SIZE) RECORD_SIZE))) =
        (pack_game_record (unpackGameCore (sliceList data (i * RECORD_SIZE) RECORD_SIZE)), 0, [])
      rw [processRecord_match_none _ _ entries (i + 1) _ (by rw [hg2]; exact hd2) hm2, hg2]
    | some e1 =>
      have he1wf : EntryWF e1 := hwf e1 (fuzzyMatch_mem _ _ _ hfz)
      have hm1 : lbMatch [] [] entries (i + 1)
          (unpackGameCore (sliceList data (i * RECORD_SIZE) RECORD_SIZE)).title =
          some (e1, MatchKind.fuzzy) := by
        rw [lbMatch_nil, hfz]
        rfl
      rw [processRecord_match_some [] [] entries (i + 1) _ e1 MatchKind.fuzzy hd2 hm1]
      have hhB : GameB (mergeGame
          (unpackGameCore (sliceList data (i * RECORD_SIZE) RECORD_SIZE)) e1) :=
        gameB_mergeGame _ _ hgB he1wf
      have hg2 : unpackGameCore (pack_game_record (mergeGame
          (unpackGameCore (sliceList data (i * RECORD_SIZE) RECORD_SIZE)) e1)) =
          mergeGame (unpackGameCore (sliceList data (i * RECORD_SIZE) RECORD_SIZE)) e1 :=
        unpackGameCore_pack_of_gameB _ hhB
      have hd3 : (unpackGameCore (pack_game_record (mergeGame
          (unpackGameCore (sliceList data (i * RECORD_SIZE) RECORD_SIZE)) e1))).deleted =
          false := by
        rw [hg2]
        exact hd2
      show processRecord (load_mapping_file ((import_metadata data entries []).mapFileAfter)).1
          (load_mapping_file ((import_metadata data entries []).mapFileAfter)).2 entries (i + 1)
          (pack_game_record (mergeGame
            (unpackGameCore (sliceList data (i * RECORD_SIZE) RECORD_SIZE)) e1)) =
        (pack_game_record (mergeGame
          (unpackGameCore (sliceList data (i * RECORD_SIZE) RECORD_SIZE)) e1), 0,
         if 0 < e1.database_id ∨ e1.guid ≠ []
         then [(i + 1, e1.database_id, e1.guid)] else [])
      cases hfe : findExact
          (load_mapping_file ((import_metadata data entries []).mapFileAfter)).1
          (load_mapping_file ((import_metadata data entries []).mapFileAfter)).2
          (i + 1) entries with
      | some r =>
        obtain ⟨e2, k2⟩ := r
        have hq := run2_exact_entry data entries hcnt hwf hids hguids i e2 k2 hfe
        rw [hfz] at hq
        have he12 : e1 = e2 := Option.some_inj.mp hq
        subst he12
        have hm2 : lbMatch
            (load_mapping_file ((import_metadata data entries []).mapFileAfter)).1
            (load_mapping_file ((import_metadata data entries []).mapFileAfter)).2 entries (i + 1)
            (unpackGameCore (pack_game_record (mergeGame
              (unpackGameCore (sliceList data (i * RECORD_SIZE) RECORD_SIZE)) e1))).title =
            some (e1, k2) := by
          unfold lbMatch
          rw [hfe]
        rw [processRecord_match_some _ _ entries (i + 1) _ e1 k2 hd3 hm2, hg2, mergeGame_idem]
        simp
      | none =>
        have hm2 : lbMatch
            (load_mapping_file ((import_metadata data entries []).mapFileAfter)).1
            (load_mapping_file ((import_metadata data entries []).mapFileAfter)).2 entries (i + 1)
            (unpackGameCore (pack_game_record (mergeGame
              (unpackGameCore (sliceList data (i * RECORD_SIZE) RECORD_SIZE)) e1))).title =
            some (e1, MatchKind.fuzzy) := by
          unfold lbMatch
          rw [hfe, hg2]
          rw [show (mergeGame (unpackGameCore
              (sliceList data (i * RECORD_SIZE) RECORD_SIZE)) e1).title =
            (unpackGameCore (sliceList data (i * RECORD_SIZE) RECORD_SIZE)).title from rfl, hfz]
          rfl
        rw [processRecord_match_some _ _ entries (i + 1) _ e1 MatchKind.fuzzy hd3 hm2, hg2,
          mergeGame_idem]
        simp

/-- C4 (amended): starting from no mapping file, with byte-valued input
data, at most 65535 records, and external entries that are well-formed
with pairwise distinct positive database ids and pairwise distinct
non-empty GUIDs, a second run of the import pipeline on the first run's
outputs reports zero updates and leaves both the database bytes and the
mapping-file contents exactly as the first run wrote them. -/
theorem c4_idempotence (data : List Nat) (entries : List Entry)
    (hbytes : ∀ b ∈ data, b < 256)
    (hcnt : data.length / RECORD_SIZE ≤ 65535)
    (hwf : ∀ e ∈ entries, EntryWF e)
    (hids : ∀ i j ei ej, entries.get? i = some ei → entries.get? j = some ej →
      0 < ei.database_id → ei.database_id = ej.database_id → i = j)
    (hguids : ∀ i j ei ej, entries.get? i = some ei → entries.get? j = some ej →
      ei.guid ≠ [] → ei.guid = ej.guid → i = j) :
    (import_metadata (import_metadata data entries []).dbBytes entries
      (import_metadata data entries []).mapFileAfter).updates = 0 ∧
    (import_metadata (import_metadata data entries []).dbBytes entries
      (import_metadata data entries []).mapFileAfter).dbBytes =
      (import_metadata data entries []).dbBytes ∧
    (import_metadata (import_metadata data entries []).dbBytes entries
      (import_metadata data entries []).mapFileAfter).mapFileAfter =
      (import_metadata data entries []).mapFileAfter := by
  obtain ⟨hdb1, hupd1, hnm1⟩ := import_metadata_parts data entries []
  have hdb1a : (import_metadata data entries []).dbBytes =
      ((List.range (data.length / RECORD_SIZE)).map (fun i =>
        (processRecord [] [] entries (i + 1)
          (sliceList data (i * RECORD_SIZE) RECORD_SIZE)).1)).join := hdb1
  have hnm1a : (import_metadata data entries []).newMappings =
      ((List.range (data.length / RECORD_SIZE)).map (fun i =>
        (processRecord [] [] entries (i + 1)
          (sliceList data (i * RECORD_SIZE) RECORD_SIZE)).2.2)).join := hnm1
  have huniform1 : ∀ x ∈ (List.range (data.length / RECORD_SIZE)).map (fun i =>
      (processRecord [] [] entries (i + 1)
        (sliceList data (i * RECORD_SIZE) RECORD_SIZE)).1), x.length = 256 := by
    intro x hx
    rcases List.mem_map.mp hx with ⟨j, hj, hxj⟩
    have hjlt := List.mem_range.mp hj
    have hslice : (sliceList data (j * RECORD_SIZE) RECORD_SIZE).length = 256 := by
      apply length_sliceList_of_le
      have hj256 : j < data.length / 256 := hjlt
      show j * 256 + 256 ≤ data.length
      omega
    rw [← hxj]
    exact length_processRecord_fst _ _ _ _ _ hslice
  have hlen1 : (import_metadata data entries []).dbBytes.length =
      256 * (data.length / RECORD_SIZE) := by
    rw [hdb1a, length_join_uniform _ huniform1, List.length_map, List.length_range]
  have hcnt2 : (import_metadata data entries []).dbBytes.length / RECORD_SIZE =
      data.length / RECORD_SIZE := by
    rw [hlen1]
    show 256 * (data.length / RECORD_SIZE) / 256 = data.length / RECORD_SIZE
    omega
  obtain ⟨hdb2, hupd2, hnm2⟩ := import_metadata_parts (import_metadata data entries []).dbBytes
    entries (import_metadata data entries []).mapFileAfter
  rw [hcnt2] at hdb2 hupd2 hnm2
  have hsl2 : ∀ i, i < data.length / RECORD_SIZE →
      sliceList (import_metadata data entries []).dbBytes (i * RECORD_SIZE) RECORD_SIZE =
      (processRecord [] [] entries (i + 1)
        (sliceList data (i * RECORD_SIZE) RECORD_SIZE)).1 :=
    fun i hi => slice_import_dbBytes data entries [] i hi
  have hpiece2 : ∀ i, i < data.length / RECORD_SIZE →
      processRecord (load_mapping_file ((import_metadata data entries []).mapFileAfter)).1
        (load_mapping_file ((import_metadata data entries []).mapFileAfter)).2 entries (i + 1)
        (sliceList (import_metadata data entries []).dbBytes (i * RECORD_SIZE) RECORD_SIZE) =
      ((processRecord [] [] entries (i + 1)
          (sliceList data (i * RECORD_SIZE) RECORD_SIZE)).1, 0,
       (processRecord [] [] entries (i + 1)
          (sliceList data (i * RECORD_SIZE) RECORD_SIZE)).2.2) := by
    intro i hi
    rw [hsl2 i hi]
    exact c4_piece data entries hbytes hcnt hwf hids hguids i
  have hnmmap : (List.range (data.length / RECORD_SIZE)).map (fun i =>
      (processRecord (load_mapping_file ((import_metadata data entries []).mapFileAfter)).1
        (load_mapping_file ((import_metadata data entries []).mapFileAfter)).2 entries (i + 1)
        (sliceList (import_metadata data entries []).dbBytes
          (i * RECORD_SIZE) RECORD_SIZE)).2.2) =
      (List.range (data.length / RECORD_SIZE)).map (fun i =>
      (processRecord [] [] entries (i + 1)
        (sliceList data (i * RECORD_SIZE) RECORD_SIZE)).2.2) := by
    refine List.map_congr_left ?_
    intro j hj
    exact congrArg (fun p => p.2.2) (hpiece2 j (List.mem_range.mp hj))
  have hnmeq : (import_metadata (import_metadata data entries []).dbBytes entries
      (import_metadata data entries []).mapFileAfter).newMappings =
      (import_metadata data entries []).newMappings := by
    rw [hnm2, hnmmap, ← hnm1a]
  refine ⟨?_, ?_, ?_⟩
  · rw [hupd2]
    apply List.sum_eq_zero
    intro x hx
    rcases List.mem_map.mp hx with ⟨j, hj, hxj⟩
    rw [← hxj]
    exact congrArg (fun p => p.2.1) (hpiece2 j (List.mem_range.mp hj))
  · have hdbmap : (List.range (data.length / RECORD_SIZE)).map (fun i =>
        (processRecord (load_mapping_file ((import_metadata data entries []).mapFileAfter)).1
          (load_mapping_file ((import_metadata data entries []).mapFileAfter)).2 entries (i + 1)
          (sliceList (import_metadata data entries []).dbBytes
            (i * RECORD_SIZE) RECORD_SIZE)).1) =
        (List.range (data.length / RECORD_SIZE)).map (fun i =>
        (processRecord [] [] entries (i + 1)
          (sliceList data (i * RECORD_SIZE) RECORD_SIZE)).1) := by
      refine List.map_congr_left ?_
      intro j hj
      exact congrArg (fun p => p.1) (hpiece2 j (List.mem_range.mp hj))
    rw [hdb2, hdbmap, ← hdb1a]
  · rw [import_mapFileAfter (import_metadata data entries []).dbBytes entries
      (import_metadata data entries []).mapFileAfter, hnmeq]
    by_cases hn : (import_metadata data entries []).newMappings = []
    · rw [if_pos hn]
    · rw [if_neg hn, import_mapFileAfter data entries [], if_neg hn]

set_option maxRecDepth 40000 in
/-- C4 counterexample: with a pre-existing mapping file sending id 7 to
slot 1 and one entry with id 7 titled like record 2, the first run maps
both slots to id 7, but the second run (where the reloaded id index now
points at slot 2 only) drops slot 1's mapping, so the mapping file after
the second run differs from the first run's output and the claimed
idempotence over arbitrary prior mapping files is false on the code. -/
theorem c4_counterexample :
    (import_metadata
      ((import_metadata
        (pack_game_record (Game.mk [65, 65, 65, 65] [] [] [] 0 0 0 0 [] [] 0 0 false false) ++
         pack_game_record (Game.mk [90, 90, 90, 90] [] [] [] 0 0 0 0 [] [] 0 0 false false))
        [Entry.mk [90, 90, 90, 90] [80] [] 0 7 []]
        (pack_mapping_record 1 7 [])).dbBytes)
      [Entry.mk [90, 90, 90, 90] [80] [] 0 7 []]
      ((import_metadata
        (pack_game_record (Game.mk [65, 65, 65, 65] [] [] [] 0 0 0 0 [] [] 0 0 false false) ++
         pack_game_record (Game.mk [90, 90, 90, 90] [] [] [] 0 0 0 0 [] [] 0 0 false false))
        [Entry.mk [90, 90, 90, 90] [80] [] 0 7 []]
        (pack_mapping_record 1 7 [])).mapFileAfter)).mapFileAfter ≠
    (import_metadata
      (pack_game_record (Game.mk [65, 65, 65, 65] [] [] [] 0 0 0 0 [] [] 0 0 false false) ++
       pack_game_record (Game.mk [90, 90, 90, 90] [] [] [] 0 0 0 0 [] [] 0 0 false false))
      [Entry.mk [90, 90, 90, 90] [80] [] 0 7 []]
      (pack_mapping_record 1 7 [])).mapFileAfter := by
  decide

set_option maxRecDepth 40000 in
/-- Witness for the amended C4 at a one-record, one-entry instance with
no prior mapping file. -/
theorem c4_idempotence_witness :
    (∀ b ∈ pack_game_record (Game.mk [90, 90] [] [] [] 0 0 0 0 [] [] 0 0 false false),
      b < 256) ∧
    (import_metadata
      (import_metadata
        (pack_game_record (Game.mk [90, 90] [] [] [] 0 0 0 0 [] [] 0 0 false false))
        [Entry.mk [90, 90] [80] [] 0 7 []] []).dbBytes
      [Entry.mk [90, 90] [80] [] 0 7 []]
      (import_metadata
        (pack_game_record (Game.mk [90, 90] [] [] [] 0 0 0 0 [] [] 0 0 false false))
        [Entry.mk [90, 90] [80] [] 0 7 []] []).mapFileAfter).updates = 0 := by
  refine ⟨by decide, (c4_idempotence
    (pack_game_record (Game.mk [90, 90] [] [] [] 0 0 0 0 [] [] 0 0 false false))
    [Entry.mk [90, 90] [80] [] 0 7 []] (by decide) (by decide) (by decide) ?_ ?_).1⟩
  · intro i j ei ej hi hj _ _
    cases i with
    | zero =>
      cases j with
      | zero => rfl
      | succ m => simp at hj
    | succ n => simp at hi
  · intro i j ei ej hi hj _ _
    cases i with
    | zero =>
      cases j with
      | zero => rfl
      | succ m => simp at hj
    | succ n => simp at hi

end DosMenu
